import Mathlib

/-!
Shallow embedding of the issue-classification engine of knip 0.7.3
(`src/cli.ts`, function `findIssues` and its helpers), together with the
external capability surface it consumes (source model, dependency analyzer,
project loader), and proofs of the spec's claims about it.

JavaScript data structures are modelled as follows:
* a JS `Set` is a list without duplicates, kept in insertion order
  (`setAdd` inserts only when absent, at the end);
* a JS plain-object map is an association list in key insertion order,
  where assigning to an existing key replaces the value in place
  (`alistSet`), matching JS property-order semantics;
* machine numbers that only ever count things are `Nat`.
-/

namespace Knip

/-! ## Paths

`path.relative(from, to)` from Node's `path` module, specialised to the
absolute, normalised POSIX paths that `findIssues` feeds it (`workingDir`
is resolved by the CLI layer; `sourceFile.getFilePath()` is absolute). -/

def splitOnChar (c : Char) : List Char → List (List Char)
  | [] => [[]]
  | x :: xs =>
    let r := splitOnChar c xs
    if x = c then [] :: r
    else
      match r with
      | [] => [[x]]
      | y :: ys => (x :: y) :: ys

/-- Split a path on `/` and drop empty segments. -/
def splitPath (p : String) : List String :=
  ((splitOnChar '/' p.data).map (fun cs => String.mk cs)).filter
    (fun s => s ≠ "")

def dropCommonPrefix : List String → List String → List String × List String
  | a :: as, b :: bs => if a = b then dropCommonPrefix as bs else (a :: as, b :: bs)
  | as, bs => (as, bs)

def pathRelative (base target : String) : String :=
  let (fs, rest) := dropCommonPrefix (splitPath base) (splitPath target)
  String.intercalate "/" (fs.map (fun _ => "..") ++ rest)

/-! ## JS collections -/

/-- `Set.add`: insert at the end only when absent (JS `Set` semantics). -/
def setAdd (s : List String) (x : String) : List String :=
  if x ∈ s then s else s ++ [x]

/-- `new Set(xs)` for a list of strings: fold of `setAdd`. -/
def mkSet (xs : List String) : List String :=
  xs.foldl setAdd []

/-- Object property read `m[k]` (keys of a JS object are unique, so
returning the first match is returning the only one). -/
def alistGet {α : Type} (m : List (String × α)) (k : String) : Option α :=
  match m with
  | [] => none
  | p :: rest => if p.1 = k then some p.2 else alistGet rest k

/-- Object property write `m[k] = v`: replace the value of an existing key
in place, append a new key at the end (JS string-key property order; keys
of a JS object are unique, so replacing the first occurrence is replacing
the only one). -/
def alistSet {α : Type} (m : List (String × α)) (k : String) (v : α) : List (String × α) :=
  match m with
  | [] => [(k, v)]
  | p :: rest => if p.1 = k then (k, v) :: rest else p :: alistSet rest k v

/-! ## Data model -/

/-- The shape of an exported declaration node, as far as the identifier
extraction in `findIssues` distinguishes shapes.  The shapes whose
extraction uses `getFirstChildByKindOrThrow` / `getLastChildByKindOrThrow`
carry the identifier that call returns; a node on which that call would
throw aborts the whole run (§7: upstream failures abort the run), so such
nodes are outside the state space of a completing run and are not
represented. `getFirstDescendantByKind` can return `undefined`, hence the
`Option` on the fallback shape. -/
inductive DeclShape where
  | identifier (text : String)
  | arrowFunction
  | functionDeclaration (firstChildIdentifier : String)
  | classDeclaration (firstChildIdentifier : String)
  | typeAliasDeclaration (firstChildIdentifier : String)
  | interfaceDeclaration (firstChildIdentifier : String)
  | enumDeclaration (firstChildIdentifier : String)
  | propertyAccessExpression (lastChildIdentifier : String)
  | other (firstDescendantIdentifier : Option String)
deriving Repr, DecidableEq

/-- An exported declaration together with the answers the source-model
capability gives about it.  `id` is ts-morph node identity (the code puts
declaration *objects* into a `Set`).  `declType` is the result of
`getType(declaration)` — modelled from the spec:
`declarationType(declaration) -> Type | none` (`util/type` is not among the
sources); `some` means the declaration is a type, carrying the type-kind
string.  `refs` is the result of
`identifier.findReferences()` flattened one level: one entry per referenced
symbol, each entry the list of `fileName`s of its references. -/
structure Declaration where
  id : Nat
  shape : DeclShape
  declType : Option String
  hasJSDocPublicTag : Bool
  refs : List (List String)
deriving Repr, DecidableEq

/-- A source file with the answers of the external capabilities for it:
`exportedDeclarations` is `sourceFile.getExportedDeclarations()` in map
iteration order; `duplicateExportGroups` is `findDuplicateExportedNames`
(ts-morph-helpers; modelled from the spec:
`duplicateExportGroups(file) -> list of list<name>`, sorted groups of two
or more names bound to one declaration); `unresolvedDependencies` is
`getUnresolvedDependencies(sourceFile)` (dependency analyzer, modelled
from the spec: `unresolvedImports(file) -> list<symbol>` packaged as
issues); `isNamespaceTarget` is `findReferencingNamespaceNodes(sourceFile).length > 0`. -/
structure Issue where
  filePath : String
  symbol : String
  symbols : List String := []
  symbolType : Option String := none
deriving Repr, DecidableEq

structure SourceFile where
  filePath : String
  exportedDeclarations : List (String × List Declaration)
  duplicateExportGroups : List (List String)
  unresolvedDependencies : List Issue
  isNamespaceTarget : Bool
deriving Repr, DecidableEq

/-- `SymbolIssueType` from `types.ts`: categories stored per file per symbol. -/
inductive SymbolIssueType where
  | unresolved | exports | types | nsExports | nsTypes | duplicates
deriving Repr, DecidableEq

/-- `ProjectIssueType` from `types.ts`: categories stored as a global set. -/
inductive ProjectIssueType where
  | dependencies | devDependencies
deriving Repr, DecidableEq

/-- Per-category store for symbol issues: file key → symbol → issue. -/
def SymbolMap : Type := List (String × List (String × Issue))

instance : DecidableEq SymbolMap := by
  unfold SymbolMap; infer_instance

/-- The `issues` record built at the start of `findIssues`. -/
structure Issues where
  files : List String
  dependencies : List String
  devDependencies : List String
  unresolved : SymbolMap
  exports : SymbolMap
  types : SymbolMap
  nsExports : SymbolMap
  nsTypes : SymbolMap
  duplicates : SymbolMap
deriving DecidableEq

/-- The `counters` record. -/
structure Counters where
  files : Nat
  dependencies : Nat
  devDependencies : Nat
  unresolved : Nat
  exports : Nat
  types : Nat
  nsExports : Nat
  nsTypes : Nat
  duplicates : Nat
  processed : Nat
deriving Repr, DecidableEq

def Issues.getSym (i : Issues) : SymbolIssueType → SymbolMap
  | .unresolved => i.unresolved
  | .exports => i.exports
  | .types => i.types
  | .nsExports => i.nsExports
  | .nsTypes => i.nsTypes
  | .duplicates => i.duplicates

def Issues.setSym (i : Issues) : SymbolIssueType → SymbolMap → Issues
  | .unresolved, m => { i with unresolved := m }
  | .exports, m => { i with exports := m }
  | .types, m => { i with types := m }
  | .nsExports, m => { i with nsExports := m }
  | .nsTypes, m => { i with nsTypes := m }
  | .duplicates, m => { i with duplicates := m }

def Issues.getProj (i : Issues) : ProjectIssueType → List String
  | .dependencies => i.dependencies
  | .devDependencies => i.devDependencies

def Issues.setProj (i : Issues) : ProjectIssueType → List String → Issues
  | .dependencies, s => { i with dependencies := s }
  | .devDependencies, s => { i with devDependencies := s }

def Counters.getSym (c : Counters) : SymbolIssueType → Nat
  | .unresolved => c.unresolved
  | .exports => c.exports
  | .types => c.types
  | .nsExports => c.nsExports
  | .nsTypes => c.nsTypes
  | .duplicates => c.duplicates

def Counters.incSym (c : Counters) : SymbolIssueType → Counters
  | .unresolved => { c with unresolved := c.unresolved + 1 }
  | .exports => { c with exports := c.exports + 1 }
  | .types => { c with types := c.types + 1 }
  | .nsExports => { c with nsExports := c.nsExports + 1 }
  | .nsTypes => { c with nsTypes := c.nsTypes + 1 }
  | .duplicates => { c with duplicates := c.duplicates + 1 }

def Counters.getProj (c : Counters) : ProjectIssueType → Nat
  | .dependencies => c.dependencies
  | .devDependencies => c.devDependencies

def Counters.incProj (c : Counters) : ProjectIssueType → Counters
  | .dependencies => { c with dependencies := c.dependencies + 1 }
  | .devDependencies => { c with devDependencies := c.devDependencies + 1 }

/-! ## Configuration and run state -/

/-- The `report` object: which issue categories the active configuration
requests (from `types.ts` / `util/config`). -/
structure Report where
  files : Bool
  dependencies : Bool
  devDependencies : Bool
  unlisted : Bool
  exports : Bool
  types : Bool
  nsExports : Bool
  nsTypes : Bool
  duplicates : Bool
deriving Repr, DecidableEq

structure JsDocOptions where
  isReadPublicTag : Bool
deriving Repr, DecidableEq

/-- The slice of `Configuration` that `findIssues` reads, the three file
sets from the project loader included.  `unusedDependencies` /
`unusedDevDependencies` are the (argumentless) dependency-analyzer queries
`getUnusedDependencies()` / `getUnusedDevDependencies()`, modelled from the
spec: `unusedDependencies() -> list<symbol>`, computed once in project
scope. -/
structure Configuration where
  workingDir : String
  isShowProgress : Bool
  report : Report
  isDev : Bool
  jsDocOptions : JsDocOptions
  entryFiles : List SourceFile
  productionFiles : List SourceFile
  projectFiles : List SourceFile
  unusedDependencies : List String
  unusedDevDependencies : List String
deriving Repr, DecidableEq

/-- The mutable run state: the issue store, the counters, and the trace of
lines the `LineRewriter` has been asked to render (`output` stands for the
terminal; `lineRewriter.update(messages)` appends the message block). -/
structure EngineState where
  issues : Issues
  counters : Counters
  output : List (List String)
deriving DecidableEq

/-- The closure context shared by `updateProcessingOutput`,
`addSymbolIssue` and `addProjectIssue` (captured variables of the
arrow functions inside `findIssues`). -/
structure Ctx where
  workingDir : String
  isShowProgress : Bool
  report : Report
  totalFiles : Nat
  unreferencedCount : Nat
deriving Repr, DecidableEq

/-- `getLine(value, text)` from `log.ts` — modelled from the spec: renders
one line of the progress breakdown from a value and a label (`log.ts` is
not among the sources; no claim depends on the exact formatting). -/
def getLine (value : String) (text : String) : String :=
  value ++ " " ++ text

/-- `updateProcessingOutput(item)`: a no-op when progress display is off,
otherwise renders the percentage line plus one line per enabled category
and the in-progress file name, in place.  Only the output trace changes;
issues and counters are read, never written. -/
def updateProcessingOutput (ctx : Ctx) (item : Issue) (st : EngineState) : EngineState :=
  if !ctx.isShowProgress then st
  else
    let counter := st.counters.processed
    let total := ctx.totalFiles
    let percentage := counter * 100 / total
    let messages := [getLine (toString percentage ++ "%")
      ("of files processed (" ++ toString counter ++ " of " ++ toString total ++ ")")]
    let messages := messages ++
      (if ctx.report.files then [getLine (toString ctx.unreferencedCount) "unused files"] else [])
    let messages := messages ++
      (if ctx.report.unlisted then [getLine (toString st.counters.unresolved) "unlisted dependencies"] else [])
    let messages := messages ++
      (if ctx.report.exports then [getLine (toString st.counters.exports) "unused exports"] else [])
    let messages := messages ++
      (if ctx.report.nsExports then [getLine (toString st.counters.nsExports) "unused exports in namespace"] else [])
    let messages := messages ++
      (if ctx.report.types then [getLine (toString st.counters.types) "unused types"] else [])
    let messages := messages ++
      (if ctx.report.nsTypes then [getLine (toString st.counters.nsTypes) "unused types in namespace"] else [])
    let messages := messages ++
      (if ctx.report.duplicates then [getLine (toString st.counters.duplicates) "duplicate exports"] else [])
    let messages := messages ++
      (if counter < total then ["", "Processing: " ++ pathRelative ctx.workingDir item.filePath] else [])
    { st with output := st.output ++ [messages] }

/-- `addSymbolIssue(issueType, issue)`: store under the path relative to
the working directory, then under the symbol; increment the category
counter (unconditionally); notify the progress reporter. -/
def addSymbolIssue (ctx : Ctx) (issueType : SymbolIssueType) (issue : Issue)
    (st : EngineState) : EngineState :=
  let key := pathRelative ctx.workingDir issue.filePath
  let m := st.issues.getSym issueType
  let fileMap := (alistGet m key).getD []
  let m := alistSet m key (alistSet fileMap issue.symbol issue)
  let st := { st with
    issues := st.issues.setSym issueType m
    counters := st.counters.incSym issueType }
  updateProcessingOutput ctx issue st

/-- `addProjectIssue(issueType, issue)`: add the symbol to the global set
and increment the counter only when it was not there yet; always notify
the progress reporter. -/
def addProjectIssue (ctx : Ctx) (issueType : ProjectIssueType) (issue : Issue)
    (st : EngineState) : EngineState :=
  let s := st.issues.getProj issueType
  let st :=
    if issue.symbol ∈ s then st
    else { st with
      issues := st.issues.setProj issueType (s ++ [issue.symbol])
      counters := st.counters.incProj issueType }
  updateProcessingOutput ctx issue st

/-! ## File partitioner -/

/-- Modelled from the spec:
`partition(superset, candidateSubset) -> (inSuperset, notInSuperset)` —
`partitionSourceFiles` lives in `util/project`, which is not among the
sources.  It splits a candidate file list by membership in a reference
set, preserving input order within each output, with no side effects;
membership of a file is by its unique path (§3: a File is an opaque handle
with a unique path).  The positional argument that gets split is fixed by
the call sites in `cli.ts`: `partitionSourceFiles(usedProductionFiles,
entryFiles)` must yield the non-entry production files as its second
output ("We only traverse the non-entry production files"), and
`partitionSourceFiles(projectFiles, productionFiles)` must yield the
never-imported project files as its second output (§2: files never
imported become `files` issues) — so the *first* argument is the candidate
list being split and the *second* is the reference set. -/
def partitionSourceFiles (candidates refSet : List SourceFile) :
    List SourceFile × List SourceFile :=
  (candidates.filter (fun f => refSet.any (fun g => g.filePath = f.filePath)),
   candidates.filter (fun f => !refSet.any (fun g => g.filePath = f.filePath)))

/-! ## Export usage classifier -/

/-- The identifier-extraction match of `findIssues`
(`declaration.isKind(...)` cascade): named bindings yield themselves,
arrow functions are skipped (`TODO No ReferenceFindableNode/Identifier
available?`), function/class/type-alias/interface/enum declarations yield
their first child identifier, property-access exports their last child
identifier, anything else its first descendant identifier when present. -/
def extractIdentifier : DeclShape → Option String
  | .identifier text => some text
  | .arrowFunction => none
  | .functionDeclaration i => some i
  | .classDeclaration i => some i
  | .typeAliasDeclaration i => some i
  | .interfaceDeclaration i => some i
  | .enumDeclaration i => some i
  | .propertyAccessExpression i => some i
  | .other fd => fd

/-- Lookup `issues[category][filePath]?.[identifierText]` — note the code
indexes the outer map with the *absolute* file path here, while
`addSymbolIssue` stores under the path *relative* to the working
directory. -/
def lookupIssue (m : SymbolMap) (filePath symbol : String) : Option Issue :=
  alistGet ((alistGet m filePath).getD []) symbol

/-- Lines 251–275 of `cli.ts`: reference resolution and classification of
one extracted identifier (`identifier.findReferences()` onwards). -/
def classifyExport (ctx : Ctx) (sf : SourceFile) (type : Option String)
    (refs : List (List String)) (identifierText : String) (st : EngineState) : EngineState :=
  if refs.length = 0 then
    addSymbolIssue ctx .exports { filePath := sf.filePath, symbol := identifierText } st
  else
    let refFiles := mkSet refs.flatten
    let isReferencedOnlyBySelf :=
      refFiles.length = 1 && refFiles.head? = some sf.filePath
    if !isReferencedOnlyBySelf then st
    else if sf.isNamespaceTarget then
      if type.isSome then
        addSymbolIssue ctx .nsTypes
          { filePath := sf.filePath, symbol := identifierText, symbolType := type } st
      else
        addSymbolIssue ctx .nsExports { filePath := sf.filePath, symbol := identifierText } st
    else if type.isSome then
      addSymbolIssue ctx .types
        { filePath := sf.filePath, symbol := identifierText, symbolType := type } st
    else
      addSymbolIssue ctx .exports { filePath := sf.filePath, symbol := identifierText } st

/-- Lines 246–276 of `cli.ts`: the `if (identifier)` body — the four
short-circuit lookups (note: keyed by the absolute `filePath`), then
classification. -/
def processIdentifier (ctx : Ctx) (cfg : Configuration) (sf : SourceFile)
    (type : Option String) (refs : List (List String)) (identifierText : String)
    (st : EngineState) : EngineState :=
  if cfg.report.exports && (lookupIssue st.issues.exports sf.filePath identifierText).isSome then st
  else if cfg.report.types && (lookupIssue st.issues.types sf.filePath identifierText).isSome then st
  else if cfg.report.nsExports && (lookupIssue st.issues.nsExports sf.filePath identifierText).isSome then st
  else if cfg.report.nsTypes && (lookupIssue st.issues.nsTypes sf.filePath identifierText).isSome then st
  else classifyExport ctx sf type refs identifierText st

/-- The body of the inner `declarations.forEach(declaration => ...)`
in `findIssues`: category guards, JSDoc `@public` filter, identifier
extraction, then `processIdentifier`. -/
def processDeclaration (ctx : Ctx) (cfg : Configuration) (sf : SourceFile)
    (declaration : Declaration) (st : EngineState) : EngineState :=
  let type := declaration.declType
  if !cfg.report.nsExports && !cfg.report.nsTypes &&
      ((!cfg.report.types && type.isSome) || (!cfg.report.exports && !type.isSome)) then st
  else if cfg.jsDocOptions.isReadPublicTag && declaration.hasJSDocPublicTag then st
  else
    match extractIdentifier declaration.shape with
    | none => st
    | some identifierText =>
      processIdentifier ctx cfg sf type declaration.refs identifierText st

/-- `new Set([...exportDeclarations.values()].flat()).size`: the number of
distinct declaration *objects* (ts-morph node identity, our `id` field)
among all exported declarations of the file. -/
def uniqueExportCount (sf : SourceFile) : Nat :=
  (((sf.exportedDeclarations.map (fun p => p.2)).flatten.map (fun d => d.id)).foldl
    (fun s x => if x ∈ s then s else s ++ [x]) []).length

/-- The body of `usedNonEntryFiles.forEach(sourceFile => ...)`:
processed counter, unresolved dependencies, duplicate exports, then —
unless the single-unique-export early exit fires — the per-declaration
classification. -/
def processNonEntryFile (ctx : Ctx) (cfg : Configuration) (sf : SourceFile)
    (st : EngineState) : EngineState :=
  let st := { st with counters := { st.counters with processed := st.counters.processed + 1 } }
  let filePath := sf.filePath
  let st :=
    if cfg.report.dependencies || cfg.report.unlisted then
      sf.unresolvedDependencies.foldl (fun st issue => addSymbolIssue ctx .unresolved issue st) st
    else st
  let exportDeclarations := sf.exportedDeclarations
  let st :=
    if cfg.report.duplicates then
      sf.duplicateExportGroups.foldl (fun st symbols =>
        let symbol := String.intercalate "|" symbols
        addSymbolIssue ctx .duplicates
          { filePath := filePath, symbol := symbol, symbols := symbols } st) st
    else st
  if cfg.report.exports || cfg.report.types || cfg.report.nsExports || cfg.report.nsTypes then
    if uniqueExportCount sf = 1 then st
    else
      exportDeclarations.foldl (fun st p =>
        p.2.foldl (fun st declaration => processDeclaration ctx cfg sf declaration st) st) st
  else st

/-! ## The run -/

/-- Lines 170–174 of `cli.ts`: the entry-file traversal of the
dependency-collection fast path — bump `processed` and record each file's
unresolved dependencies. -/
def entryFilePass (ctx : Ctx) (usedEntryFiles : List SourceFile) (st : EngineState) : EngineState :=
  usedEntryFiles.foldl (fun st sf =>
    let st := { st with counters := { st.counters with processed := st.counters.processed + 1 } }
    sf.unresolvedDependencies.foldl (fun st issue => addSymbolIssue ctx .unresolved issue st) st) st

/-- Lines 284–289 of `cli.ts`: the project-scope dependency pass —
`getUnusedDependencies()` always, `getUnusedDevDependencies()` only in dev
mode. -/
def projectDependencyPass (ctx : Ctx) (cfg : Configuration) (st : EngineState) : EngineState :=
  let st := cfg.unusedDependencies.foldl (fun st symbol =>
    addProjectIssue ctx .dependencies { filePath := "", symbol := symbol } st) st
  if cfg.isDev then
    cfg.unusedDevDependencies.foldl (fun st symbol =>
      addProjectIssue ctx .devDependencies { filePath := "", symbol := symbol } st) st
  else st

/-- `findIssues(configuration)` as a state transformer: partition the file
sets, initialise the store and counters, run the entry-file dependency
pass, the main non-entry traversal and the project-scope dependency pass,
in that order, each phase guarded by the enabled report categories. -/
def findIssuesState (cfg : Configuration) : EngineState :=
  let partA := partitionSourceFiles cfg.projectFiles cfg.productionFiles
  let usedProductionFiles := partA.1
  let unreferencedProductionFiles := partA.2
  let partB := partitionSourceFiles usedProductionFiles cfg.entryFiles
  let usedEntryFiles := partB.1
  let usedNonEntryFiles := partB.2
  let issues0 : Issues :=
    { files := mkSet (unreferencedProductionFiles.map (fun f => f.filePath))
      dependencies := []
      devDependencies := []
      unresolved := []
      exports := []
      types := []
      nsExports := []
      nsTypes := []
      duplicates := [] }
  let counters0 : Counters :=
    { files := issues0.files.length
      dependencies := issues0.dependencies.length
      devDependencies := issues0.dependencies.length
      unresolved := 0
      exports := 0
      types := 0
      nsExports := 0
      nsTypes := 0
      duplicates := 0
      processed := issues0.files.length }
  let ctx : Ctx :=
    { workingDir := cfg.workingDir
      isShowProgress := cfg.isShowProgress
      report := cfg.report
      totalFiles := cfg.projectFiles.length
      unreferencedCount := unreferencedProductionFiles.length }
  let st : EngineState := { issues := issues0, counters := counters0, output := [] }
  let st :=
    if cfg.report.dependencies || cfg.report.unlisted then
      entryFilePass ctx usedEntryFiles st
    else st
  let st :=
    if cfg.report.dependencies || cfg.report.unlisted || cfg.report.exports ||
        cfg.report.types || cfg.report.nsExports || cfg.report.nsTypes ||
        cfg.report.duplicates then
      usedNonEntryFiles.foldl (fun st sf => processNonEntryFile ctx cfg sf st) st
    else st
  let st :=
    if cfg.report.dependencies then
      projectDependencyPass ctx cfg st
    else st
  st

/-- The value `findIssues` returns: `{ issues, counters }`. -/
def findIssues (cfg : Configuration) : Issues × Counters :=
  ((findIssuesState cfg).issues, (findIssuesState cfg).counters)

/-! ## Derived notions used in the statements -/

/-- Cardinality of a symbol-issue store: the number of `(file, symbol)`
entries (§3). -/
def symbolMapCard (m : SymbolMap) : Nat :=
  (m.map (fun p => p.2.length)).sum

/-- The effect of one `addSymbolIssue` call on its category's store,
as a pure map operation. -/
def unresolvedStep (workingDir : String) (m : SymbolMap) (issue : Issue) : SymbolMap :=
  alistSet m (pathRelative workingDir issue.filePath)
    (alistSet ((alistGet m (pathRelative workingDir issue.filePath)).getD [])
      issue.symbol issue)

/-- The spec's single-pass unresolved-dependency collection, written from
its words (§4.2): run `unresolvedDependencies` once over a list of
reachable files, recording each result in the `unresolved` store the way
`addSymbolIssue` stores it.  Compared against the two-phase run of
`findIssues` in the refinement theorem. -/
def unresolvedSinglePass (workingDir : String) (files : List SourceFile) : SymbolMap :=
  files.foldl (fun m sf =>
    sf.unresolvedDependencies.foldl (unresolvedStep workingDir) m) []

/-- Two engine states agree on everything the caller of `findIssues`
receives: the issue store and the counters (the rendered output may
differ). -/
def coreEq (s1 s2 : EngineState) : Prop :=
  s1.issues = s2.issues ∧ s1.counters = s2.counters

/-! ## Concrete scenario data for counterexamples and witnesses -/

/-- A declaration with zero references, exported below under two names
(`x` and `y`) from the same file — the aliased-export scenario. -/
def aliasedDecl : Declaration :=
  { id := 0, shape := .identifier "x", declType := none,
    hasJSDocPublicTag := false, refs := [] }

/-- A declaration referenced from another file (in active use). -/
def externallyUsedDecl : Declaration :=
  { id := 1, shape := .identifier "z", declType := none,
    hasJSDocPublicTag := false, refs := [["/other.ts"]] }

/-- A type-alias declaration with zero references. -/
def unusedTypeDecl : Declaration :=
  { id := 2, shape := .typeAliasDeclaration "T", declType := some "type",
    hasJSDocPublicTag := false, refs := [] }

/-- A declaration referenced only from its own declaring file. -/
def selfRefDecl : Declaration :=
  { id := 3, shape := .identifier "s", declType := none,
    hasJSDocPublicTag := false, refs := [["/proj/n.ts"]] }

/-- File exporting `aliasedDecl` under the two names `x` and `y`, plus the
used declaration `z` (so the single-unique-export early exit does not
fire). -/
def aliasedExportFile : SourceFile :=
  { filePath := "/proj/a.ts"
    exportedDeclarations := [("x", [aliasedDecl]), ("y", [aliasedDecl]), ("z", [externallyUsedDecl])]
    duplicateExportGroups := []
    unresolvedDependencies := []
    isNamespaceTarget := false }

/-- File exporting the unused type `T` plus the used declaration `z`. -/
def typeExportFile : SourceFile :=
  { filePath := "/proj/b.ts"
    exportedDeclarations := [("T", [unusedTypeDecl]), ("z", [externallyUsedDecl])]
    duplicateExportGroups := []
    unresolvedDependencies := []
    isNamespaceTarget := false }

/-- A namespace-access-target file whose export `s` is referenced only by
itself. -/
def nsTargetFile : SourceFile :=
  { filePath := "/proj/n.ts"
    exportedDeclarations := [("s", [selfRefDecl]), ("z", [externallyUsedDecl])]
    duplicateExportGroups := []
    unresolvedDependencies := []
    isNamespaceTarget := true }

/-- A file whose only export is one uniquely-named unused symbol. -/
def singleExportFile : SourceFile :=
  { filePath := "/proj/c.ts"
    exportedDeclarations := [("only", [{ aliasedDecl with id := 4, shape := .identifier "only" }])]
    duplicateExportGroups := []
    unresolvedDependencies := []
    isNamespaceTarget := false }

/-- A file with one duplicate-export group `x|y`. -/
def dupExportFile : SourceFile :=
  { filePath := "/proj/d.ts"
    exportedDeclarations := [("x", [aliasedDecl]), ("y", [aliasedDecl])]
    duplicateExportGroups := [["x", "y"]]
    unresolvedDependencies := []
    isNamespaceTarget := false }

/-- Report configuration enabling only the `exports` category. -/
def exportsOnlyReport : Report :=
  { files := false, dependencies := false, devDependencies := false, unlisted := false,
    exports := true, types := false, nsExports := false, nsTypes := false, duplicates := false }

/-- Report configuration enabling `exports` and `types`. -/
def exportsTypesReport : Report :=
  { exportsOnlyReport with types := true }

/-- Report configuration enabling only `duplicates`. -/
def duplicatesOnlyReport : Report :=
  { exportsOnlyReport with exports := false, duplicates := true }

/-- Configuration for the aliased-export scenario: one non-entry
production file, progress display off, `exports` reporting only. -/
def aliasedExportConfig : Configuration :=
  { workingDir := "/proj"
    isShowProgress := false
    report := exportsOnlyReport
    isDev := false
    jsDocOptions := { isReadPublicTag := false }
    entryFiles := []
    productionFiles := [aliasedExportFile]
    projectFiles := [aliasedExportFile]
    unusedDependencies := []
    unusedDevDependencies := [] }

/-- Configuration for the unused-type scenario, with both `exports` and
`types` reporting enabled. -/
def typeZeroRefConfig : Configuration :=
  { aliasedExportConfig with
    report := exportsTypesReport
    productionFiles := [typeExportFile]
    projectFiles := [typeExportFile] }

/-- Configuration for the duplicate-export scenario. -/
def dupExportConfig : Configuration :=
  { aliasedExportConfig with
    report := duplicatesOnlyReport
    productionFiles := [dupExportFile]
    projectFiles := [dupExportFile] }

/-- A fresh empty engine state. -/
def emptyState : EngineState :=
  { issues :=
      { files := [], dependencies := [], devDependencies := [], unresolved := []
        exports := [], types := [], nsExports := [], nsTypes := [], duplicates := [] }
    counters :=
      { files := 0, dependencies := 0, devDependencies := 0, unresolved := 0
        exports := 0, types := 0, nsExports := 0, nsTypes := 0, duplicates := 0, processed := 0 }
    output := [] }

/-- A concrete closure context with progress display off. -/
def quietCtx : Ctx :=
  { workingDir := "/proj", isShowProgress := false, report := exportsOnlyReport,
    totalFiles := 1, unreferencedCount := 0 }

/-! ## Basic lemmas about the JS collection model -/

theorem alistGet_nil {α : Type} (k : String) : alistGet ([] : List (String × α)) k = none := rfl

theorem alistGet_alistSet_self {α : Type} (m : List (String × α)) (k : String) (v : α) :
    alistGet (alistSet m k v) k = some v := by
  induction m with
  | nil => simp [alistSet, alistGet]
  | cons p rest ih =>
    by_cases h : p.1 = k
    · simp [alistSet, h, alistGet]
    · simpa [alistSet, h, alistGet] using ih

theorem alistGet_alistSet_ne {α : Type} (m : List (String × α)) {k k' : String} (v : α)
    (h : k' ≠ k) : alistGet (alistSet m k v) k' = alistGet m k' := by
  induction m with
  | nil => simp [alistSet, alistGet, Ne.symm h]
  | cons p rest ih =>
    by_cases hp : p.1 = k
    · simp [alistSet, hp, alistGet, Ne.symm h]
    · by_cases hp' : p.1 = k'
      · simp [alistSet, hp, alistGet, hp', h]
      · simpa [alistSet, hp, alistGet, hp'] using ih

theorem length_alistSet {α : Type} (m : List (String × α)) (k : String) (v : α) :
    (alistSet m k v).length =
      if (alistGet m k).isSome then m.length else m.length + 1 := by
  induction m with
  | nil => simp [alistSet, alistGet]
  | cons p rest ih =>
    by_cases h : p.1 = k
    · simp [alistSet, h, alistGet]
    · simp only [alistSet, h, if_false, List.length_cons, ih, alistGet]
      split <;> simp

theorem symbolMapCard_cons (p : String × List (String × Issue)) (rest : SymbolMap) :
    symbolMapCard (p :: rest) = p.2.length + symbolMapCard rest := by
  simp [symbolMapCard]

theorem symbolMapCard_alistSet (m : SymbolMap) (k : String) (v : List (String × Issue)) :
    symbolMapCard (alistSet m k v) + ((alistGet m k).getD []).length =
      symbolMapCard m + v.length := by
  induction m with
  | nil => simp [alistSet, alistGet, symbolMapCard]
  | cons p rest ih =>
    by_cases h : p.1 = k
    · simp only [alistSet, h, if_true, alistGet, symbolMapCard_cons]
      simp
      omega
    · simp only [alistSet, h, if_false, alistGet, symbolMapCard_cons]
      omega

theorem mem_setAdd {x y : String} {s : List String} :
    x ∈ setAdd s y ↔ x ∈ s ∨ x = y := by
  unfold setAdd
  split <;> rename_i h
  · constructor
    · exact fun hx => Or.inl hx
    · rintro (hx | rfl) <;> [exact hx; exact h]
  · simp

theorem mem_foldl_setAdd (x : String) :
    ∀ (xs s : List String), x ∈ xs.foldl setAdd s ↔ x ∈ s ∨ x ∈ xs := by
  intro xs
  induction xs with
  | nil => simp
  | cons y ys ih =>
    intro s
    simp only [List.foldl_cons, ih, mem_setAdd, List.mem_cons]
    tauto

theorem mem_mkSet {x : String} {xs : List String} : x ∈ mkSet xs ↔ x ∈ xs := by
  unfold mkSet
  rw [mem_foldl_setAdd]
  simp

/-! ## Store and counter field algebra -/

theorem getSym_setSym_self (i : Issues) (t : SymbolIssueType) (m : SymbolMap) :
    (i.setSym t m).getSym t = m := by
  cases t <;> rfl

theorem getSym_setSym_ne (i : Issues) {t t' : SymbolIssueType} (m : SymbolMap)
    (h : t' ≠ t) : (i.setSym t m).getSym t' = i.getSym t' := by
  cases t <;> cases t' <;> first | rfl | exact absurd rfl h

theorem getProj_setSym (i : Issues) (t : SymbolIssueType) (m : SymbolMap)
    (pt : ProjectIssueType) : (i.setSym t m).getProj pt = i.getProj pt := by
  cases t <;> cases pt <;> rfl

theorem files_setSym (i : Issues) (t : SymbolIssueType) (m : SymbolMap) :
    (i.setSym t m).files = i.files := by
  cases t <;> rfl

theorem getProj_setProj_self (i : Issues) (pt : ProjectIssueType) (s : List String) :
    (i.setProj pt s).getProj pt = s := by
  cases pt <;> rfl

theorem getProj_setProj_ne (i : Issues) {pt pt' : ProjectIssueType} (s : List String)
    (h : pt' ≠ pt) : (i.setProj pt s).getProj pt' = i.getProj pt' := by
  cases pt <;> cases pt' <;> first | rfl | exact absurd rfl h

theorem getSym_setProj (i : Issues) (pt : ProjectIssueType) (s : List String)
    (t : SymbolIssueType) : (i.setProj pt s).getSym t = i.getSym t := by
  cases pt <;> cases t <;> rfl

theorem files_setProj (i : Issues) (pt : ProjectIssueType) (s : List String) :
    (i.setProj pt s).files = i.files := by
  cases pt <;> rfl

theorem getSym_incSym_self (c : Counters) (t : SymbolIssueType) :
    (c.incSym t).getSym t = c.getSym t + 1 := by
  cases t <;> rfl

theorem getSym_incSym_ne (c : Counters) {t t' : SymbolIssueType} (h : t' ≠ t) :
    (c.incSym t).getSym t' = c.getSym t' := by
  cases t <;> cases t' <;> first | rfl | exact absurd rfl h

theorem getProj_incSym (c : Counters) (t : SymbolIssueType) (pt : ProjectIssueType) :
    (c.incSym t).getProj pt = c.getProj pt := by
  cases t <;> cases pt <;> rfl

theorem processed_incSym (c : Counters) (t : SymbolIssueType) :
    (c.incSym t).processed = c.processed := by
  cases t <;> rfl

theorem getProj_incProj_self (c : Counters) (pt : ProjectIssueType) :
    (c.incProj pt).getProj pt = c.getProj pt + 1 := by
  cases pt <;> rfl

theorem getSym_incProj (c : Counters) (pt : ProjectIssueType) (t : SymbolIssueType) :
    (c.incProj pt).getSym t = c.getSym t := by
  cases pt <;> cases t <;> rfl

theorem processed_incProj (c : Counters) (pt : ProjectIssueType) :
    (c.incProj pt).processed = c.processed := by
  cases pt <;> rfl

/-! ## Projection lemmas for the aggregator operations -/

theorem updateProcessingOutput_issues (ctx : Ctx) (item : Issue) (st : EngineState) :
    (updateProcessingOutput ctx item st).issues = st.issues := by
  unfold updateProcessingOutput
  split <;> rfl

theorem updateProcessingOutput_counters (ctx : Ctx) (item : Issue) (st : EngineState) :
    (updateProcessingOutput ctx item st).counters = st.counters := by
  unfold updateProcessingOutput
  split <;> rfl

theorem addSymbolIssue_getSym_self (ctx : Ctx) (t : SymbolIssueType) (issue : Issue)
    (st : EngineState) :
    (addSymbolIssue ctx t issue st).issues.getSym t =
      alistSet (st.issues.getSym t) (pathRelative ctx.workingDir issue.filePath)
        (alistSet ((alistGet (st.issues.getSym t) (pathRelative ctx.workingDir issue.filePath)).getD [])
          issue.symbol issue) := by
  unfold addSymbolIssue
  rw [updateProcessingOutput_issues]
  exact getSym_setSym_self _ _ _

theorem addSymbolIssue_getSym_ne (ctx : Ctx) {t t' : SymbolIssueType} (issue : Issue)
    (st : EngineState) (h : t' ≠ t) :
    (addSymbolIssue ctx t issue st).issues.getSym t' = st.issues.getSym t' := by
  unfold addSymbolIssue
  rw [updateProcessingOutput_issues]
  exact getSym_setSym_ne _ _ h

theorem addSymbolIssue_getProj (ctx : Ctx) (t : SymbolIssueType) (issue : Issue)
    (st : EngineState) (pt : ProjectIssueType) :
    (addSymbolIssue ctx t issue st).issues.getProj pt = st.issues.getProj pt := by
  unfold addSymbolIssue
  rw [updateProcessingOutput_issues]
  exact getProj_setSym _ _ _ _

theorem addSymbolIssue_files (ctx : Ctx) (t : SymbolIssueType) (issue : Issue)
    (st : EngineState) :
    (addSymbolIssue ctx t issue st).issues.files = st.issues.files := by
  unfold addSymbolIssue
  rw [updateProcessingOutput_issues]
  exact files_setSym _ _ _

theorem addSymbolIssue_counter_self (ctx : Ctx) (t : SymbolIssueType) (issue : Issue)
    (st : EngineState) :
    (addSymbolIssue ctx t issue st).counters.getSym t = st.counters.getSym t + 1 := by
  unfold addSymbolIssue
  rw [updateProcessingOutput_counters]
  exact getSym_incSym_self _ _

theorem addSymbolIssue_counter_ne (ctx : Ctx) {t t' : SymbolIssueType} (issue : Issue)
    (st : EngineState) (h : t' ≠ t) :
    (addSymbolIssue ctx t issue st).counters.getSym t' = st.counters.getSym t' := by
  unfold addSymbolIssue
  rw [updateProcessingOutput_counters]
  exact getSym_incSym_ne _ h

theorem addSymbolIssue_counter_getProj (ctx : Ctx) (t : SymbolIssueType) (issue : Issue)
    (st : EngineState) (pt : ProjectIssueType) :
    (addSymbolIssue ctx t issue st).counters.getProj pt = st.counters.getProj pt := by
  unfold addSymbolIssue
  rw [updateProcessingOutput_counters]
  exact getProj_incSym _ _ _

theorem addSymbolIssue_processed (ctx : Ctx) (t : SymbolIssueType) (issue : Issue)
    (st : EngineState) :
    (addSymbolIssue ctx t issue st).counters.processed = st.counters.processed := by
  unfold addSymbolIssue
  rw [updateProcessingOutput_counters]
  exact processed_incSym _ _

theorem addProjectIssue_getSym (ctx : Ctx) (pt : ProjectIssueType) (issue : Issue)
    (st : EngineState) (t : SymbolIssueType) :
    (addProjectIssue ctx pt issue st).issues.getSym t = st.issues.getSym t := by
  unfold addProjectIssue
  rw [updateProcessingOutput_issues]
  split
  · rfl
  · exact getSym_setProj _ _ _ _

theorem addProjectIssue_files (ctx : Ctx) (pt : ProjectIssueType) (issue : Issue)
    (st : EngineState) :
    (addProjectIssue ctx pt issue st).issues.files = st.issues.files := by
  unfold addProjectIssue
  rw [updateProcessingOutput_issues]
  split
  · rfl
  · exact files_setProj _ _ _

theorem addProjectIssue_counter_getSym (ctx : Ctx) (pt : ProjectIssueType) (issue : Issue)
    (st : EngineState) (t : SymbolIssueType) :
    (addProjectIssue ctx pt issue st).counters.getSym t = st.counters.getSym t := by
  unfold addProjectIssue
  rw [updateProcessingOutput_counters]
  split
  · rfl
  · exact getSym_incProj _ _ _

theorem addProjectIssue_getProj_self (ctx : Ctx) (pt : ProjectIssueType) (issue : Issue)
    (st : EngineState) :
    (addProjectIssue ctx pt issue st).issues.getProj pt =
      if issue.symbol ∈ st.issues.getProj pt then st.issues.getProj pt
      else st.issues.getProj pt ++ [issue.symbol] := by
  unfold addProjectIssue
  rw [updateProcessingOutput_issues]
  split <;> rename_i h
  · simp [h]
  · simp [h, getProj_setProj_self]

theorem addProjectIssue_counter_self (ctx : Ctx) (pt : ProjectIssueType) (issue : Issue)
    (st : EngineState) :
    (addProjectIssue ctx pt issue st).counters.getProj pt =
      if issue.symbol ∈ st.issues.getProj pt then st.counters.getProj pt
      else st.counters.getProj pt + 1 := by
  unfold addProjectIssue
  rw [updateProcessingOutput_counters]
  split <;> rename_i h
  · simp [h]
  · simp [h, getProj_incProj_self]

/-- A projection that a step function leaves unchanged is unchanged by the
whole fold. -/
theorem foldl_preserve {σ α β : Type} (f : σ → α → σ) (g : σ → β)
    (h : ∀ s a, g (f s a) = g s) :
    ∀ (l : List α) (s : σ), g (l.foldl f s) = g s := by
  intro l
  induction l with
  | nil => intro s; rfl
  | cons a l ih => intro s; rw [List.foldl_cons, ih, h]

/-! ## Structure of the per-declaration classifier -/

/-- A run of the reference classifier either leaves the state untouched or
adds exactly one symbol issue, in one of the four export-classification
categories. -/
theorem classifyExport_shape (ctx : Ctx) (sf : SourceFile) (type : Option String)
    (refs : List (List String)) (identifierText : String) (st : EngineState) :
    classifyExport ctx sf type refs identifierText st = st ∨
    ∃ t issue, t ≠ SymbolIssueType.unresolved ∧ t ≠ SymbolIssueType.duplicates ∧
      classifyExport ctx sf type refs identifierText st = addSymbolIssue ctx t issue st := by
  unfold classifyExport
  dsimp only
  repeat' split
  all_goals first
    | exact Or.inl rfl
    | exact Or.inr ⟨.exports, _, by decide, by decide, rfl⟩
    | exact Or.inr ⟨.types, _, by decide, by decide, rfl⟩
    | exact Or.inr ⟨.nsExports, _, by decide, by decide, rfl⟩
    | exact Or.inr ⟨.nsTypes, _, by decide, by decide, rfl⟩

/-- A run of the per-declaration classifier either leaves the state
untouched or adds exactly one symbol issue, in one of the four
export-classification categories. -/
theorem processDeclaration_shape (ctx : Ctx) (cfg : Configuration) (sf : SourceFile)
    (d : Declaration) (st : EngineState) :
    processDeclaration ctx cfg sf d st = st ∨
    ∃ t issue, t ≠ SymbolIssueType.unresolved ∧ t ≠ SymbolIssueType.duplicates ∧
      processDeclaration ctx cfg sf d st = addSymbolIssue ctx t issue st := by
  unfold processDeclaration processIdentifier
  dsimp only
  repeat' split
  all_goals first
    | exact Or.inl rfl
    | exact classifyExport_shape ctx sf d.declType d.refs _ st

theorem processDeclaration_getSym_preserved (ctx : Ctx) (cfg : Configuration)
    (sf : SourceFile) (d : Declaration) (st : EngineState) {t : SymbolIssueType}
    (h1 : t = SymbolIssueType.unresolved ∨ t = SymbolIssueType.duplicates) :
    (processDeclaration ctx cfg sf d st).issues.getSym t = st.issues.getSym t := by
  rcases processDeclaration_shape ctx cfg sf d st with h | ⟨t', issue, hu, hd, h⟩
  · rw [h]
  · rw [h]
    apply addSymbolIssue_getSym_ne
    rcases h1 with rfl | rfl
    · exact fun hc => hu hc.symm
    · exact fun hc => hd hc.symm

theorem processDeclaration_counter_preserved (ctx : Ctx) (cfg : Configuration)
    (sf : SourceFile) (d : Declaration) (st : EngineState) {t : SymbolIssueType}
    (h1 : t = SymbolIssueType.unresolved ∨ t = SymbolIssueType.duplicates) :
    (processDeclaration ctx cfg sf d st).counters.getSym t = st.counters.getSym t := by
  rcases processDeclaration_shape ctx cfg sf d st with h | ⟨t', issue, hu, hd, h⟩
  · rw [h]
  · rw [h]
    apply addSymbolIssue_counter_ne
    rcases h1 with rfl | rfl
    · exact fun hc => hu hc.symm
    · exact fun hc => hd hc.symm

theorem processDeclaration_files (ctx : Ctx) (cfg : Configuration)
    (sf : SourceFile) (d : Declaration) (st : EngineState) :
    (processDeclaration ctx cfg sf d st).issues.files = st.issues.files := by
  rcases processDeclaration_shape ctx cfg sf d st with h | ⟨t', issue, _, _, h⟩
  · rw [h]
  · rw [h, addSymbolIssue_files]

theorem processDeclaration_getProj (ctx : Ctx) (cfg : Configuration)
    (sf : SourceFile) (d : Declaration) (st : EngineState) (pt : ProjectIssueType) :
    (processDeclaration ctx cfg sf d st).issues.getProj pt = st.issues.getProj pt := by
  rcases processDeclaration_shape ctx cfg sf d st with h | ⟨t', issue, _, _, h⟩
  · rw [h]
  · rw [h, addSymbolIssue_getProj]

theorem processDeclaration_processed (ctx : Ctx) (cfg : Configuration)
    (sf : SourceFile) (d : Declaration) (st : EngineState) :
    (processDeclaration ctx cfg sf d st).counters.processed = st.counters.processed := by
  rcases processDeclaration_shape ctx cfg sf d st with h | ⟨t', issue, _, _, h⟩
  · rw [h]
  · rw [h, addSymbolIssue_processed]

/-! ## Claim C10 -/

/-- C10: an exported declaration node that is an arrow function is
silently skipped by identifier extraction — the classifier leaves the
state untouched, so no `exports`/`types`/`nsExports`/`nsTypes` issue can
arise from it, whatever its references are. -/
theorem arrow_function_exports_never_reported (ctx : Ctx) (cfg : Configuration)
    (sf : SourceFile) (st : EngineState) (n : Nat) (ty : Option String) (tag : Bool)
    (r : List (List String)) :
    processDeclaration ctx cfg sf
      { id := n, shape := .arrowFunction, declType := ty,
        hasJSDocPublicTag := tag, refs := r } st = st := by
  unfold processDeclaration
  dsimp only
  split
  · rfl
  · split
    · rfl
    · rfl

/-! ## Claim C2 -/

/-- C2 (amended): a declaration whose identifier has zero references is
always recorded under `exports` — even when it is a type — and never under
`types`, `nsExports` or `nsTypes`. -/
theorem zero_refs_always_exports (ctx : Ctx) (cfg : Configuration) (sf : SourceFile)
    (d : Declaration) (st : EngineState) (h : d.refs = []) :
    (processDeclaration ctx cfg sf d st).issues.getSym .types = st.issues.getSym .types ∧
    (processDeclaration ctx cfg sf d st).issues.getSym .nsExports = st.issues.getSym .nsExports ∧
    (processDeclaration ctx cfg sf d st).issues.getSym .nsTypes = st.issues.getSym .nsTypes ∧
    (processDeclaration ctx cfg sf d st = st ∨
      ∃ i, extractIdentifier d.shape = some i ∧
        processDeclaration ctx cfg sf d st =
          addSymbolIssue ctx .exports { filePath := sf.filePath, symbol := i } st) := by
  have main : processDeclaration ctx cfg sf d st = st ∨
      ∃ i, extractIdentifier d.shape = some i ∧
        processDeclaration ctx cfg sf d st =
          addSymbolIssue ctx .exports { filePath := sf.filePath, symbol := i } st := by
    unfold processDeclaration processIdentifier classifyExport
    dsimp only
    rw [h]
    simp only [List.length_nil, if_true]
    repeat' split
    all_goals first
      | exact Or.inl rfl
      | exact Or.inr ⟨_, by assumption, rfl⟩
  refine ⟨?_, ?_, ?_, main⟩ <;>
    rcases main with hm | ⟨i, hi, hm⟩ <;> rw [hm] <;>
      first
        | rfl
        | exact addSymbolIssue_getSym_ne ctx _ st (by decide)

/-- C2 counterexample: in `typeZeroRefConfig` the type alias `T` has zero
references, `types` reporting is enabled, and yet the run records the
issue under `exports` (with no type information) and records nothing under
`types` — against the claim that a zero-reference type declaration is
categorised as `types`. -/
theorem zero_ref_type_lands_in_exports :
    (findIssuesState typeZeroRefConfig).issues.types = [] ∧
    lookupIssue (findIssuesState typeZeroRefConfig).issues.exports "b.ts" "T" =
      some { filePath := "/proj/b.ts", symbol := "T" } := by
  decide

/-! ## Claim C1 -/

/-- C1 (amended): `addProjectIssue` adds to the set and increments the
counter exactly when the symbol is new, so project-category counters track
their store's size; `addSymbolIssue` increments its counter on *every*
call, while the store only grows when the `(file, symbol)` pair is new —
so a symbol-category counter equals the number of insertion calls, not the
store cardinality, and the two agree only while no duplicate pair is
inserted. -/
theorem aggregator_counter_deltas (ctx : Ctx) (st : EngineState) (issue : Issue)
    (pt : ProjectIssueType) (t : SymbolIssueType) :
    ((addProjectIssue ctx pt issue st).issues.getProj pt).length =
      (st.issues.getProj pt).length +
        (if issue.symbol ∈ st.issues.getProj pt then 0 else 1) ∧
    (addProjectIssue ctx pt issue st).counters.getProj pt =
      st.counters.getProj pt +
        (if issue.symbol ∈ st.issues.getProj pt then 0 else 1) ∧
    (addSymbolIssue ctx t issue st).counters.getSym t = st.counters.getSym t + 1 ∧
    symbolMapCard ((addSymbolIssue ctx t issue st).issues.getSym t) =
      symbolMapCard (st.issues.getSym t) +
        (if (lookupIssue (st.issues.getSym t)
              (pathRelative ctx.workingDir issue.filePath) issue.symbol).isSome
         then 0 else 1) := by
  refine ⟨?_, ?_, addSymbolIssue_counter_self ctx t issue st, ?_⟩
  · rw [addProjectIssue_getProj_self]
    split <;> simp
  · rw [addProjectIssue_counter_self]
    split <;> simp
  · rw [addSymbolIssue_getSym_self]
    have hcard := symbolMapCard_alistSet (st.issues.getSym t)
      (pathRelative ctx.workingDir issue.filePath)
      (alistSet ((alistGet (st.issues.getSym t) (pathRelative ctx.workingDir issue.filePath)).getD [])
        issue.symbol issue)
    have hlen := length_alistSet
      ((alistGet (st.issues.getSym t) (pathRelative ctx.workingDir issue.filePath)).getD [])
      issue.symbol issue
    unfold lookupIssue
    split <;> rename_i hmem
    · rw [if_pos hmem] at hlen
      omega
    · rw [if_neg hmem] at hlen
      omega

/-- C1 counterexample: in `aliasedExportConfig` the same zero-reference
declaration is exported under two names, so `addSymbolIssue('exports', …)`
runs twice for the pair `(a.ts, x)`; the counter ends at 2 while the store
holds a single entry — refuting `counters[category] == |issues[category]|`
and the only-on-first-insertion increment. -/
theorem counter_exceeds_store_on_duplicate_insert :
    (findIssuesState aliasedExportConfig).counters.exports = 2 ∧
    symbolMapCard (findIssuesState aliasedExportConfig).issues.exports = 1 := by
  decide

/-! ## Claim C5 -/

/-- C5: the short-circuit reads `issues[category][filePath]` with the
*absolute* source-file path while `addSymbolIssue` stores under the path
*relative* to the working directory, so the already-recorded check can
never hit: in `aliasedExportConfig` the pair `(a.ts, x)` is recorded after
its first processing, the absolute-path lookup still misses, and the
second processing runs in full — the counter reaches 2 instead of the 1 a
working skip would leave. -/
theorem short_circuit_key_mismatch :
    lookupIssue (findIssuesState aliasedExportConfig).issues.exports "/proj/a.ts" "x" = none ∧
    (lookupIssue (findIssuesState aliasedExportConfig).issues.exports "a.ts" "x").isSome = true ∧
    (findIssuesState aliasedExportConfig).counters.exports = 2 := by
  decide

/-- Witness for C2's amended theorem: the concrete zero-reference type
alias `T` of `typeExportFile`, processed from the empty state, leaves
`types`/`nsExports`/`nsTypes` untouched and records an `exports` issue. -/
theorem zero_refs_always_exports_witness :
    unusedTypeDecl.refs = [] ∧
    ((processDeclaration quietCtx typeZeroRefConfig typeExportFile unusedTypeDecl emptyState).issues.getSym .types
        = emptyState.issues.getSym .types ∧
      (processDeclaration quietCtx typeZeroRefConfig typeExportFile unusedTypeDecl emptyState).issues.getSym .nsExports
        = emptyState.issues.getSym .nsExports ∧
      (processDeclaration quietCtx typeZeroRefConfig typeExportFile unusedTypeDecl emptyState).issues.getSym .nsTypes
        = emptyState.issues.getSym .nsTypes ∧
      (processDeclaration quietCtx typeZeroRefConfig typeExportFile unusedTypeDecl emptyState = emptyState ∨
        ∃ i, extractIdentifier unusedTypeDecl.shape = some i ∧
          processDeclaration quietCtx typeZeroRefConfig typeExportFile unusedTypeDecl emptyState =
            addSymbolIssue quietCtx .exports { filePath := typeExportFile.filePath, symbol := i } emptyState)) :=
  ⟨rfl, zero_refs_always_exports quietCtx typeZeroRefConfig typeExportFile unusedTypeDecl emptyState rfl⟩

/-! ## Claim C3 -/

/-- C3: a declaration whose identifier is referenced only from its own
declaring file is classified by exactly one `addSymbolIssue` call:
`nsTypes`/`nsExports` (type/value) when the file is a namespace-access
target, `types`/`exports` (type/value) otherwise — never `exports`/`types`
in the namespace case, and never more than one category. -/
theorem self_ref_only_classification (ctx : Ctx) (cfg : Configuration) (sf : SourceFile)
    (d : Declaration) (st : EngineState) (i : String)
    (hg1 : (!cfg.report.nsExports && !cfg.report.nsTypes &&
        ((!cfg.report.types && d.declType.isSome) || (!cfg.report.exports && !d.declType.isSome))) = false)
    (hg2 : (cfg.jsDocOptions.isReadPublicTag && d.hasJSDocPublicTag) = false)
    (hid : extractIdentifier d.shape = some i)
    (hs1 : (cfg.report.exports && (lookupIssue st.issues.exports sf.filePath i).isSome) = false)
    (hs2 : (cfg.report.types && (lookupIssue st.issues.types sf.filePath i).isSome) = false)
    (hs3 : (cfg.report.nsExports && (lookupIssue st.issues.nsExports sf.filePath i).isSome) = false)
    (hs4 : (cfg.report.nsTypes && (lookupIssue st.issues.nsTypes sf.filePath i).isSome) = false)
    (hself : mkSet d.refs.flatten = [sf.filePath]) :
    processDeclaration ctx cfg sf d st =
      if sf.isNamespaceTarget then
        if d.declType.isSome then
          addSymbolIssue ctx .nsTypes { filePath := sf.filePath, symbol := i, symbolType := d.declType } st
        else addSymbolIssue ctx .nsExports { filePath := sf.filePath, symbol := i } st
      else
        if d.declType.isSome then
          addSymbolIssue ctx .types { filePath := sf.filePath, symbol := i, symbolType := d.declType } st
        else addSymbolIssue ctx .exports { filePath := sf.filePath, symbol := i } st := by
  have hr : ¬ d.refs.length = 0 := by
    intro h0
    rw [List.length_eq_zero] at h0
    rw [h0] at hself
    simp [mkSet] at hself
  unfold processDeclaration processIdentifier classifyExport
  dsimp only
  rw [hid]
  simp only [hg1, hg2, hs1, hs2, hs3, hs4, hself, hr, Bool.false_eq_true, if_false]
  simp

/-! ## Claim C4 -/

theorem foldl_addSymbolIssue_getSym_ne {α : Type} (ctx : Ctx) (tt : SymbolIssueType)
    (mk : α → Issue) (l : List α) {t : SymbolIssueType} (h : t ≠ tt) (st : EngineState) :
    ((l.foldl (fun s a => addSymbolIssue ctx tt (mk a) s) st).issues.getSym t) = st.issues.getSym t :=
  foldl_preserve _ (fun s => s.issues.getSym t)
    (fun s a => addSymbolIssue_getSym_ne ctx (mk a) s h) l st

theorem foldl_addSymbolIssue_counter_ne {α : Type} (ctx : Ctx) (tt : SymbolIssueType)
    (mk : α → Issue) (l : List α) {t : SymbolIssueType} (h : t ≠ tt) (st : EngineState) :
    ((l.foldl (fun s a => addSymbolIssue ctx tt (mk a) s) st).counters.getSym t) = st.counters.getSym t :=
  foldl_preserve _ (fun s => s.counters.getSym t)
    (fun s a => addSymbolIssue_counter_ne ctx (mk a) s h) l st

theorem processNonEntryFile_single_skip (ctx : Ctx) (cfg : Configuration) (sf : SourceFile)
    (st : EngineState) (h : uniqueExportCount sf = 1) {t : SymbolIssueType}
    (h1 : t ≠ SymbolIssueType.unresolved) (h2 : t ≠ SymbolIssueType.duplicates) :
    (processNonEntryFile ctx cfg sf st).issues.getSym t = st.issues.getSym t ∧
    (processNonEntryFile ctx cfg sf st).counters.getSym t = st.counters.getSym t := by
  unfold processNonEntryFile
  dsimp only
  simp only [h, ite_self, if_pos]
  constructor
  · split
    · rw [foldl_addSymbolIssue_getSym_ne ctx .duplicates _ _ h2]
      split
      · rw [foldl_addSymbolIssue_getSym_ne ctx .unresolved _ _ h1]
      · rfl
    · split
      · rw [foldl_addSymbolIssue_getSym_ne ctx .unresolved _ _ h1]
      · rfl
  · split
    · rw [foldl_addSymbolIssue_counter_ne ctx .duplicates _ _ h2]
      split
      · rw [foldl_addSymbolIssue_counter_ne ctx .unresolved _ _ h1]
        cases t <;> rfl
      · cases t <;> rfl
    · split
      · rw [foldl_addSymbolIssue_counter_ne ctx .unresolved _ _ h1]
        cases t <;> rfl
      · cases t <;> rfl

/-- C4: when a file's exported declarations collapse to a single unique
declaration (`uniqueExportedSymbols.size === 1`), the traversal of that
file leaves all four export-classification stores and counters exactly as
they were — the file contributes no `exports`, `types`, `nsExports` or
`nsTypes` issue, whatever the declarations' reference counts are. -/
theorem single_export_early_exit (ctx : Ctx) (cfg : Configuration) (sf : SourceFile)
    (st : EngineState) (h : uniqueExportCount sf = 1) :
    ((processNonEntryFile ctx cfg sf st).issues.getSym .exports = st.issues.getSym .exports ∧
     (processNonEntryFile ctx cfg sf st).counters.getSym .exports = st.counters.getSym .exports) ∧
    ((processNonEntryFile ctx cfg sf st).issues.getSym .types = st.issues.getSym .types ∧
     (processNonEntryFile ctx cfg sf st).counters.getSym .types = st.counters.getSym .types) ∧
    ((processNonEntryFile ctx cfg sf st).issues.getSym .nsExports = st.issues.getSym .nsExports ∧
     (processNonEntryFile ctx cfg sf st).counters.getSym .nsExports = st.counters.getSym .nsExports) ∧
    ((processNonEntryFile ctx cfg sf st).issues.getSym .nsTypes = st.issues.getSym .nsTypes ∧
     (processNonEntryFile ctx cfg sf st).counters.getSym .nsTypes = st.counters.getSym .nsTypes) :=
  ⟨processNonEntryFile_single_skip ctx cfg sf st h (by decide) (by decide),
   processNonEntryFile_single_skip ctx cfg sf st h (by decide) (by decide),
   processNonEntryFile_single_skip ctx cfg sf st h (by decide) (by decide),
   processNonEntryFile_single_skip ctx cfg sf st h (by decide) (by decide)⟩

/-- Witness for C4: `singleExportFile` exports a single uniquely-named
zero-reference symbol with `exports` reporting on — without the early exit
it would be flagged — and indeed nothing changes in the four stores. -/
theorem single_export_early_exit_witness :
    uniqueExportCount singleExportFile = 1 ∧
    (((processNonEntryFile quietCtx aliasedExportConfig singleExportFile emptyState).issues.getSym .exports
        = emptyState.issues.getSym .exports ∧
      (processNonEntryFile quietCtx aliasedExportConfig singleExportFile emptyState).counters.getSym .exports
        = emptyState.counters.getSym .exports) ∧
     ((processNonEntryFile quietCtx aliasedExportConfig singleExportFile emptyState).issues.getSym .types
        = emptyState.issues.getSym .types ∧
      (processNonEntryFile quietCtx aliasedExportConfig singleExportFile emptyState).counters.getSym .types
        = emptyState.counters.getSym .types) ∧
     ((processNonEntryFile quietCtx aliasedExportConfig singleExportFile emptyState).issues.getSym .nsExports
        = emptyState.issues.getSym .nsExports ∧
      (processNonEntryFile quietCtx aliasedExportConfig singleExportFile emptyState).counters.getSym .nsExports
        = emptyState.counters.getSym .nsExports) ∧
     ((processNonEntryFile quietCtx aliasedExportConfig singleExportFile emptyState).issues.getSym .nsTypes
        = emptyState.issues.getSym .nsTypes ∧
      (processNonEntryFile quietCtx aliasedExportConfig singleExportFile emptyState).counters.getSym .nsTypes
        = emptyState.counters.getSym .nsTypes)) :=
  ⟨by decide, single_export_early_exit quietCtx aliasedExportConfig singleExportFile emptyState (by decide)⟩

/-- Witness for C3: the concrete self-referenced value `s` of the
namespace-target file `nsTargetFile` is recorded under `nsExports`. -/
theorem self_ref_only_classification_witness :
    extractIdentifier selfRefDecl.shape = some "s" ∧
    mkSet selfRefDecl.refs.flatten = [nsTargetFile.filePath] ∧
    processDeclaration quietCtx aliasedExportConfig nsTargetFile selfRefDecl emptyState =
      addSymbolIssue quietCtx .nsExports { filePath := nsTargetFile.filePath, symbol := "s" } emptyState := by
  refine ⟨by decide, by decide, ?_⟩
  have h := self_ref_only_classification quietCtx aliasedExportConfig nsTargetFile selfRefDecl emptyState "s"
    (by decide) (by decide) (by decide) (by decide) (by decide) (by decide) (by decide) (by decide)
  simpa using h

/-! ## Claim C7 -/

theorem lookupIssue_addSymbolIssue_self (ctx : Ctx) (t : SymbolIssueType) (issue : Issue)
    (st : EngineState) :
    lookupIssue ((addSymbolIssue ctx t issue st).issues.getSym t)
      (pathRelative ctx.workingDir issue.filePath) issue.symbol = some issue := by
  rw [addSymbolIssue_getSym_self]
  unfold lookupIssue
  rw [alistGet_alistSet_self]
  dsimp only [Option.getD]
  rw [alistGet_alistSet_self]

theorem lookupIssue_addSymbolIssue_ne (ctx : Ctx) (t : SymbolIssueType) (issue : Issue)
    (st : EngineState) (k s : String)
    (h : ¬(k = pathRelative ctx.workingDir issue.filePath ∧ s = issue.symbol)) :
    lookupIssue ((addSymbolIssue ctx t issue st).issues.getSym t) k s =
      lookupIssue (st.issues.getSym t) k s := by
  rw [addSymbolIssue_getSym_self]
  unfold lookupIssue
  by_cases hk : k = pathRelative ctx.workingDir issue.filePath
  · subst hk
    rw [alistGet_alistSet_self]
    dsimp only [Option.getD]
    have hs : s ≠ issue.symbol := fun hs => h ⟨rfl, hs⟩
    rw [alistGet_alistSet_ne _ _ hs]
  · rw [alistGet_alistSet_ne _ _ hk]

theorem dupFold_counter (ctx : Ctx) (fp : String) :
    ∀ (gs : List (List String)) (st : EngineState),
      ((gs.foldl (fun s symbols => addSymbolIssue ctx .duplicates
          { filePath := fp, symbol := String.intercalate "|" symbols, symbols := symbols } s) st).counters.getSym .duplicates)
        = st.counters.getSym .duplicates + gs.length := by
  intro gs
  induction gs with
  | nil => intro st; rfl
  | cons g gs ih =>
    intro st
    rw [List.foldl_cons, ih, addSymbolIssue_counter_self]
    simp [Nat.add_assoc, Nat.add_comm 1]

theorem dupFold_lookup_stable (ctx : Ctx) (fp sym : String) :
    ∀ (gs : List (List String)) (st : EngineState),
      (∀ g2 ∈ gs, String.intercalate "|" g2 ≠ sym) →
      lookupIssue ((gs.foldl (fun s symbols => addSymbolIssue ctx .duplicates
          { filePath := fp, symbol := String.intercalate "|" symbols, symbols := symbols } s) st).issues.getSym .duplicates)
        (pathRelative ctx.workingDir fp) sym =
      lookupIssue (st.issues.getSym .duplicates) (pathRelative ctx.workingDir fp) sym := by
  intro gs
  induction gs with
  | nil => intro st _; rfl
  | cons g gs ih =>
    intro st hne
    rw [List.foldl_cons, ih _ (fun g2 h2 => hne g2 (List.mem_cons_of_mem _ h2)),
      lookupIssue_addSymbolIssue_ne]
    intro hc
    exact hne g (List.mem_cons_self _ _) hc.2.symm

theorem dupFold_lookup (ctx : Ctx) (fp : String) :
    ∀ (gs : List (List String)) (st : EngineState) (g : List String),
      g ∈ gs →
      (∀ g2 ∈ gs, String.intercalate "|" g2 = String.intercalate "|" g → g2 = g) →
      lookupIssue ((gs.foldl (fun s symbols => addSymbolIssue ctx .duplicates
          { filePath := fp, symbol := String.intercalate "|" symbols, symbols := symbols } s) st).issues.getSym .duplicates)
        (pathRelative ctx.workingDir fp) (String.intercalate "|" g) =
      some { filePath := fp, symbol := String.intercalate "|" g, symbols := g } := by
  intro gs
  induction gs with
  | nil => intro st g hg; exact absurd hg (by simp)
  | cons g0 rest ih =>
    intro st g hg huniq
    rw [List.foldl_cons]
    by_cases hmem : g ∈ rest
    · exact ih _ g hmem (fun g2 h2 he => huniq g2 (List.mem_cons_of_mem _ h2) he)
    · have hg0 : g = g0 := by
        rcases List.mem_cons.mp hg with h | h
        · exact h
        · exact absurd h hmem
      subst hg0
      rw [dupFold_lookup_stable]
      · exact lookupIssue_addSymbolIssue_self ctx .duplicates _ st
      · intro g2 h2 he
        exact hmem (huniq g2 (List.mem_cons_of_mem _ h2) he ▸ h2)

theorem declFold_getSym_preserved (ctx : Ctx) (cfg : Configuration) (sf : SourceFile)
    {t : SymbolIssueType} (h1 : t = SymbolIssueType.unresolved ∨ t = SymbolIssueType.duplicates)
    (decls : List (String × List Declaration)) (st : EngineState) :
    ((decls.foldl (fun s p => p.2.foldl (fun s d => processDeclaration ctx cfg sf d s) s) st).issues.getSym t)
      = st.issues.getSym t :=
  foldl_preserve _ (fun s => s.issues.getSym t)
    (fun s p => foldl_preserve _ (fun s => s.issues.getSym t)
      (fun s d => processDeclaration_getSym_preserved ctx cfg sf d s h1) p.2 s) decls st

theorem declFold_counter_preserved (ctx : Ctx) (cfg : Configuration) (sf : SourceFile)
    {t : SymbolIssueType} (h1 : t = SymbolIssueType.unresolved ∨ t = SymbolIssueType.duplicates)
    (decls : List (String × List Declaration)) (st : EngineState) :
    ((decls.foldl (fun s p => p.2.foldl (fun s d => processDeclaration ctx cfg sf d s) s) st).counters.getSym t)
      = st.counters.getSym t :=
  foldl_preserve _ (fun s => s.counters.getSym t)
    (fun s p => foldl_preserve _ (fun s => s.counters.getSym t)
      (fun s d => processDeclaration_counter_preserved ctx cfg sf d s h1) p.2 s) decls st

/-- C7: every duplicate-export group of a traversed non-entry file yields
exactly one `duplicates` issue: the store entry is keyed by the pipe-joined
group, carries the full member list in `symbols`, and the `duplicates`
counter grows by exactly one per group. -/
theorem duplicate_group_single_issue (ctx : Ctx) (cfg : Configuration) (sf : SourceFile)
    (st : EngineState) (g : List String)
    (hmem : g ∈ sf.duplicateExportGroups)
    (hdup : cfg.report.duplicates = true)
    (huniq : ∀ g2 ∈ sf.duplicateExportGroups,
        String.intercalate "|" g2 = String.intercalate "|" g → g2 = g) :
    lookupIssue ((processNonEntryFile ctx cfg sf st).issues.getSym .duplicates)
        (pathRelative ctx.workingDir sf.filePath) (String.intercalate "|" g) =
      some { filePath := sf.filePath, symbol := String.intercalate "|" g, symbols := g } ∧
    (processNonEntryFile ctx cfg sf st).counters.getSym .duplicates =
      st.counters.getSym .duplicates + sf.duplicateExportGroups.length := by
  unfold processNonEntryFile
  dsimp only
  simp only [hdup, if_true]
  constructor
  · split
    · split
      · exact dupFold_lookup ctx sf.filePath _ _ g hmem huniq
      · rw [declFold_getSym_preserved ctx cfg sf (Or.inr rfl)]
        exact dupFold_lookup ctx sf.filePath _ _ g hmem huniq
    · exact dupFold_lookup ctx sf.filePath _ _ g hmem huniq
  · have base : ∀ s : EngineState,
        ((if (cfg.report.dependencies || cfg.report.unlisted) = true then
            sf.unresolvedDependencies.foldl (fun s issue => addSymbolIssue ctx .unresolved issue s) s
          else s).counters.getSym .duplicates) = s.counters.getSym .duplicates := by
      intro s
      split
      · exact foldl_addSymbolIssue_counter_ne ctx .unresolved _ _ (by decide) s
      · rfl
    split
    · split
      · rw [dupFold_counter, base]
        rfl
      · rw [declFold_counter_preserved ctx cfg sf (Or.inr rfl), dupFold_counter, base]
        rfl
    · rw [dupFold_counter, base]
      rfl

/-- Witness for C7: the group `x|y` of `dupExportFile` produces one
`duplicates` issue keyed `x|y` retaining `["x", "y"]`. -/
theorem duplicate_group_single_issue_witness :
    ["x", "y"] ∈ dupExportFile.duplicateExportGroups ∧
    dupExportConfig.report.duplicates = true ∧
    (lookupIssue ((processNonEntryFile quietCtx dupExportConfig dupExportFile emptyState).issues.getSym .duplicates)
        (pathRelative quietCtx.workingDir dupExportFile.filePath) (String.intercalate "|" ["x", "y"]) =
      some { filePath := dupExportFile.filePath, symbol := String.intercalate "|" ["x", "y"],
             symbols := ["x", "y"] } ∧
     (processNonEntryFile quietCtx dupExportConfig dupExportFile emptyState).counters.getSym .duplicates =
      emptyState.counters.getSym .duplicates + dupExportFile.duplicateExportGroups.length) :=
  ⟨by decide, rfl,
   duplicate_group_single_issue quietCtx dupExportConfig dupExportFile emptyState
     ["x", "y"] (by decide) rfl (by decide)⟩

/-! ## Claim C8 -/

theorem foldl_proj {sigma beta alpha : Type} (f : sigma → alpha → sigma) (g : sigma → beta)
    (step : beta → alpha → beta) (h : ∀ s a, g (f s a) = step (g s) a) :
    ∀ (l : List alpha) (s : sigma), g (l.foldl f s) = l.foldl step (g s) := by
  intro l
  induction l with
  | nil => intro s; rfl
  | cons a l ih => intro s; rw [List.foldl_cons, ih, h, List.foldl_cons]

theorem addSymbolIssue_unresolved_step (ctx : Ctx) (s : EngineState) (issue : Issue) :
    (addSymbolIssue ctx .unresolved issue s).issues.getSym .unresolved =
      unresolvedStep ctx.workingDir (s.issues.getSym .unresolved) issue := by
  rw [addSymbolIssue_getSym_self]
  rfl

theorem dupFold_getSym_ne (ctx : Ctx) (fp : String) {t : SymbolIssueType}
    (h : t ≠ SymbolIssueType.duplicates) (gs : List (List String)) (s : EngineState) :
    ((gs.foldl (fun s symbols => addSymbolIssue ctx .duplicates
        { filePath := fp, symbol := String.intercalate "|" symbols, symbols := symbols } s) s).issues.getSym t)
      = s.issues.getSym t :=
  foldl_addSymbolIssue_getSym_ne ctx .duplicates _ gs h s

theorem processNonEntryFile_unresolved_proj (ctx : Ctx) (cfg : Configuration)
    (sf : SourceFile) (st : EngineState) :
    (processNonEntryFile ctx cfg sf st).issues.getSym .unresolved =
      if (cfg.report.dependencies || cfg.report.unlisted) = true then
        sf.unresolvedDependencies.foldl (unresolvedStep ctx.workingDir)
          (st.issues.getSym .unresolved)
      else st.issues.getSym .unresolved := by
  have hfold : ∀ s : EngineState,
      ((sf.unresolvedDependencies.foldl (fun s issue => addSymbolIssue ctx .unresolved issue s) s).issues.getSym .unresolved)
        = sf.unresolvedDependencies.foldl (unresolvedStep ctx.workingDir) (s.issues.getSym .unresolved) :=
    fun s => foldl_proj _ (fun s => s.issues.getSym .unresolved) (unresolvedStep ctx.workingDir)
      (addSymbolIssue_unresolved_step ctx) sf.unresolvedDependencies s
  unfold processNonEntryFile
  dsimp only
  repeat' split
  all_goals
    try simp only [declFold_getSym_preserved ctx cfg sf (Or.inl rfl),
      dupFold_getSym_ne ctx sf.filePath
        (show SymbolIssueType.unresolved ≠ SymbolIssueType.duplicates by decide)]
  all_goals first
    | rfl
    | exact hfold _
theorem entryFilePass_unresolved_proj (ctx : Ctx) (fs : List SourceFile) (st : EngineState) :
    (entryFilePass ctx fs st).issues.getSym .unresolved =
      fs.foldl (fun m sf => sf.unresolvedDependencies.foldl (unresolvedStep ctx.workingDir) m)
        (st.issues.getSym .unresolved) := by
  unfold entryFilePass
  refine foldl_proj _ (fun s : EngineState => s.issues.getSym .unresolved)
    (fun m sf => sf.unresolvedDependencies.foldl (unresolvedStep ctx.workingDir) m) ?_ fs st
  intro s sf
  dsimp only
  exact foldl_proj _ (fun s : EngineState => s.issues.getSym .unresolved) (unresolvedStep ctx.workingDir)
    (addSymbolIssue_unresolved_step ctx) sf.unresolvedDependencies _

theorem foldl_addProjectIssue_getSym {alpha : Type} (ctx : Ctx) (pt : ProjectIssueType)
    (mk : alpha → Issue) (l : List alpha) (t : SymbolIssueType) (s : EngineState) :
    ((l.foldl (fun s a => addProjectIssue ctx pt (mk a) s) s).issues.getSym t) = s.issues.getSym t :=
  foldl_preserve _ (fun s => s.issues.getSym t) (fun s a => addProjectIssue_getSym ctx pt (mk a) s t) l s

theorem projectDependencyPass_getSym (ctx : Ctx) (cfg : Configuration) (st : EngineState)
    (t : SymbolIssueType) :
    (projectDependencyPass ctx cfg st).issues.getSym t = st.issues.getSym t := by
  unfold projectDependencyPass
  dsimp only
  split
  · rw [foldl_addProjectIssue_getSym, foldl_addProjectIssue_getSym]
  · rw [foldl_addProjectIssue_getSym]

theorem nonEntryFold_unresolved_proj (ctx : Ctx) (cfg : Configuration)
    (fs : List SourceFile) (s : EngineState) :
    ((fs.foldl (fun st sf => processNonEntryFile ctx cfg sf st) s).issues.getSym .unresolved) =
      if (cfg.report.dependencies || cfg.report.unlisted) = true then
        fs.foldl (fun m sf => sf.unresolvedDependencies.foldl (unresolvedStep ctx.workingDir) m)
          (s.issues.getSym .unresolved)
      else s.issues.getSym .unresolved := by
  split <;> rename_i hdu
  · refine foldl_proj _ (fun s : EngineState => s.issues.getSym .unresolved)
      (fun m sf => sf.unresolvedDependencies.foldl (unresolvedStep ctx.workingDir) m) ?_ fs s
    intro s sf
    dsimp only
    rw [processNonEntryFile_unresolved_proj, if_pos hdu]
  · refine foldl_preserve _ (fun s : EngineState => s.issues.getSym .unresolved) ?_ fs s
    intro s sf
    dsimp only
    rw [processNonEntryFile_unresolved_proj, if_neg hdu]

/-- C8: the two-phase unresolved-dependency collection of `findIssues`
(entry files first, then non-entry files during the main traversal)
produces exactly the store a single pass of `unresolvedDependencies` over
all reachable files (entry ++ non-entry) produces; when no
dependency-related category is enabled, the store stays empty. -/
theorem two_phase_unresolved_refines_single_pass (cfg : Configuration) :
    (findIssuesState cfg).issues.getSym .unresolved =
      if (cfg.report.dependencies || cfg.report.unlisted) = true then
        unresolvedSinglePass cfg.workingDir
          ((partitionSourceFiles (partitionSourceFiles cfg.projectFiles cfg.productionFiles).1 cfg.entryFiles).1 ++
           (partitionSourceFiles (partitionSourceFiles cfg.projectFiles cfg.productionFiles).1 cfg.entryFiles).2)
      else [] := by
  unfold findIssuesState unresolvedSinglePass
  dsimp only
  rw [List.foldl_append]
  by_cases hdu : (cfg.report.dependencies || cfg.report.unlisted) = true
  · have hg7 : (cfg.report.dependencies || cfg.report.unlisted || cfg.report.exports ||
        cfg.report.types || cfg.report.nsExports || cfg.report.nsTypes ||
        cfg.report.duplicates) = true := by
      cases hd : cfg.report.dependencies <;> cases hu : cfg.report.unlisted <;>
        simp [hd, hu] at hdu ⊢
    rw [if_pos hdu, if_pos hdu, if_pos hg7]
    split
    · rw [projectDependencyPass_getSym, nonEntryFold_unresolved_proj, if_pos hdu,
        entryFilePass_unresolved_proj]
      rfl
    · rw [nonEntryFold_unresolved_proj, if_pos hdu, entryFilePass_unresolved_proj]
      rfl
  · rw [if_neg hdu, if_neg hdu]
    split
    · rw [projectDependencyPass_getSym]
      split
      · rw [nonEntryFold_unresolved_proj, if_neg hdu]
        rfl
      · rfl
    · split
      · rw [nonEntryFold_unresolved_proj, if_neg hdu]
        rfl
      · rfl
/-! ## Claim C9 -/

theorem processDeclaration_congr (ctx : Ctx) (cfg1 cfg2 : Configuration) (sf : SourceFile)
    (d : Declaration) (st : EngineState) (h1 : cfg1.report = cfg2.report)
    (h2 : cfg1.jsDocOptions = cfg2.jsDocOptions) :
    processDeclaration ctx cfg1 sf d st = processDeclaration ctx cfg2 sf d st := by
  unfold processDeclaration processIdentifier
  rw [h1, h2]

theorem processNonEntryFile_congr (ctx : Ctx) (cfg1 cfg2 : Configuration) (sf : SourceFile)
    (st : EngineState) (h1 : cfg1.report = cfg2.report)
    (h2 : cfg1.jsDocOptions = cfg2.jsDocOptions) :
    processNonEntryFile ctx cfg1 sf st = processNonEntryFile ctx cfg2 sf st := by
  unfold processNonEntryFile
  rw [h1]
  rw [show (fun (st : EngineState) (d : Declaration) => processDeclaration ctx cfg1 sf d st)
      = (fun (st : EngineState) (d : Declaration) => processDeclaration ctx cfg2 sf d st) from
    funext fun st => funext fun d => processDeclaration_congr ctx cfg1 cfg2 sf d st h1 h2]

theorem projectDependencyPass_congr (ctx : Ctx) (cfg1 cfg2 : Configuration) (st : EngineState)
    (h1 : cfg1.isDev = cfg2.isDev)
    (h2 : cfg1.unusedDependencies = cfg2.unusedDependencies)
    (h3 : cfg1.unusedDevDependencies = cfg2.unusedDevDependencies) :
    projectDependencyPass ctx cfg1 st = projectDependencyPass ctx cfg2 st := by
  unfold projectDependencyPass
  rw [h1, h2, h3]

theorem coreEq_foldl {alpha : Type} (f1 f2 : EngineState → alpha → EngineState)
    (hstep : ∀ (s1 s2 : EngineState) (a : alpha), coreEq s1 s2 → coreEq (f1 s1 a) (f2 s2 a)) :
    ∀ (l : List alpha) (s1 s2 : EngineState), coreEq s1 s2 →
      coreEq (l.foldl f1 s1) (l.foldl f2 s2) := by
  intro l
  induction l with
  | nil => intro s1 s2 h; exact h
  | cons a l ih => intro s1 s2 h; exact ih _ _ (hstep s1 s2 a h)

theorem coreEq_addSymbolIssue (ctx1 ctx2 : Ctx) (t : SymbolIssueType) (issue : Issue)
    (s1 s2 : EngineState) (hw : ctx1.workingDir = ctx2.workingDir) (h : coreEq s1 s2) :
    coreEq (addSymbolIssue ctx1 t issue s1) (addSymbolIssue ctx2 t issue s2) := by
  obtain ⟨hi, hc⟩ := h
  constructor
  · rw [addSymbolIssue, addSymbolIssue, updateProcessingOutput_issues, updateProcessingOutput_issues]
    dsimp only
    rw [hi, hw]
  · rw [addSymbolIssue, addSymbolIssue, updateProcessingOutput_counters, updateProcessingOutput_counters]
    dsimp only
    rw [hc]

theorem coreEq_addProjectIssue (ctx1 ctx2 : Ctx) (pt : ProjectIssueType) (issue : Issue)
    (s1 s2 : EngineState) (h : coreEq s1 s2) :
    coreEq (addProjectIssue ctx1 pt issue s1) (addProjectIssue ctx2 pt issue s2) := by
  obtain ⟨hi, hc⟩ := h
  constructor
  · rw [addProjectIssue, addProjectIssue, updateProcessingOutput_issues,
      updateProcessingOutput_issues, hi]
    split
    · exact hi
    · rfl
  · rw [addProjectIssue, addProjectIssue, updateProcessingOutput_counters,
      updateProcessingOutput_counters, hi]
    split
    · exact hc
    · dsimp only
      rw [hc]

theorem coreEq_classifyExport (ctx1 ctx2 : Ctx) (sf : SourceFile) (type : Option String)
    (refs : List (List String)) (i : String) (s1 s2 : EngineState)
    (hw : ctx1.workingDir = ctx2.workingDir) (h : coreEq s1 s2) :
    coreEq (classifyExport ctx1 sf type refs i s1) (classifyExport ctx2 sf type refs i s2) := by
  unfold classifyExport
  dsimp only
  repeat' split
  all_goals first
    | exact h
    | exact coreEq_addSymbolIssue ctx1 ctx2 _ _ s1 s2 hw h

theorem coreEq_processIdentifier (ctx1 ctx2 : Ctx) (cfg : Configuration) (sf : SourceFile)
    (type : Option String) (refs : List (List String)) (i : String) (s1 s2 : EngineState)
    (hw : ctx1.workingDir = ctx2.workingDir) (h : coreEq s1 s2) :
    coreEq (processIdentifier ctx1 cfg sf type refs i s1)
      (processIdentifier ctx2 cfg sf type refs i s2) := by
  have hi := h.1
  unfold processIdentifier
  rw [hi]
  repeat' split
  all_goals first
    | exact h
    | exact coreEq_classifyExport ctx1 ctx2 sf type refs i s1 s2 hw h

theorem coreEq_processDeclaration (ctx1 ctx2 : Ctx) (cfg : Configuration) (sf : SourceFile)
    (d : Declaration) (s1 s2 : EngineState)
    (hw : ctx1.workingDir = ctx2.workingDir) (h : coreEq s1 s2) :
    coreEq (processDeclaration ctx1 cfg sf d s1) (processDeclaration ctx2 cfg sf d s2) := by
  unfold processDeclaration
  dsimp only
  repeat' split
  all_goals first
    | exact h
    | exact coreEq_processIdentifier ctx1 ctx2 cfg sf d.declType d.refs _ s1 s2 hw h

theorem coreEq_unresolvedFold (ctx1 ctx2 : Ctx) (hw : ctx1.workingDir = ctx2.workingDir)
    (deps : List Issue) (s1 s2 : EngineState) (h : coreEq s1 s2) :
    coreEq (deps.foldl (fun s issue => addSymbolIssue ctx1 .unresolved issue s) s1)
      (deps.foldl (fun s issue => addSymbolIssue ctx2 .unresolved issue s) s2) := by
  refine coreEq_foldl _ _ ?_ deps s1 s2 h
  intro a b issue hab
  exact coreEq_addSymbolIssue ctx1 ctx2 .unresolved issue a b hw hab

theorem coreEq_dupFold (ctx1 ctx2 : Ctx) (fp : String) (hw : ctx1.workingDir = ctx2.workingDir)
    (gs : List (List String)) (s1 s2 : EngineState) (h : coreEq s1 s2) :
    coreEq
      (gs.foldl (fun s symbols => addSymbolIssue ctx1 .duplicates
        { filePath := fp, symbol := String.intercalate "|" symbols, symbols := symbols } s) s1)
      (gs.foldl (fun s symbols => addSymbolIssue ctx2 .duplicates
        { filePath := fp, symbol := String.intercalate "|" symbols, symbols := symbols } s) s2) := by
  refine coreEq_foldl _ _ ?_ gs s1 s2 h
  intro a b g hab
  exact coreEq_addSymbolIssue ctx1 ctx2 .duplicates _ a b hw hab

theorem coreEq_declFold (ctx1 ctx2 : Ctx) (cfg : Configuration) (sf : SourceFile)
    (hw : ctx1.workingDir = ctx2.workingDir)
    (decls : List (String × List Declaration)) (s1 s2 : EngineState) (h : coreEq s1 s2) :
    coreEq
      (decls.foldl (fun s p => p.2.foldl (fun s d => processDeclaration ctx1 cfg sf d s) s) s1)
      (decls.foldl (fun s p => p.2.foldl (fun s d => processDeclaration ctx2 cfg sf d s) s) s2) := by
  refine coreEq_foldl _ _ ?_ decls s1 s2 h
  intro a b p hab
  refine coreEq_foldl _ _ ?_ p.2 a b hab
  intro a b d hab
  exact coreEq_processDeclaration ctx1 ctx2 cfg sf d a b hw hab

theorem coreEq_processNonEntryFile (ctx1 ctx2 : Ctx) (cfg : Configuration) (sf : SourceFile)
    (s1 s2 : EngineState) (hw : ctx1.workingDir = ctx2.workingDir) (h : coreEq s1 s2) :
    coreEq (processNonEntryFile ctx1 cfg sf s1) (processNonEntryFile ctx2 cfg sf s2) := by
  have h0 : coreEq
      { s1 with counters := { s1.counters with processed := s1.counters.processed + 1 } }
      { s2 with counters := { s2.counters with processed := s2.counters.processed + 1 } } := by
    obtain ⟨hi, hc⟩ := h
    exact ⟨hi, by rw [hc]⟩
  unfold processNonEntryFile
  dsimp only
  repeat' split
  all_goals first
    | exact h0
    | exact coreEq_unresolvedFold ctx1 ctx2 hw _ _ _ h0
    | exact coreEq_dupFold ctx1 ctx2 sf.filePath hw _ _ _ (coreEq_unresolvedFold ctx1 ctx2 hw _ _ _ h0)
    | exact coreEq_dupFold ctx1 ctx2 sf.filePath hw _ _ _ h0
    | exact coreEq_declFold ctx1 ctx2 cfg sf hw _ _ _
        (coreEq_dupFold ctx1 ctx2 sf.filePath hw _ _ _ (coreEq_unresolvedFold ctx1 ctx2 hw _ _ _ h0))
    | exact coreEq_declFold ctx1 ctx2 cfg sf hw _ _ _ (coreEq_dupFold ctx1 ctx2 sf.filePath hw _ _ _ h0)
    | exact coreEq_declFold ctx1 ctx2 cfg sf hw _ _ _ (coreEq_unresolvedFold ctx1 ctx2 hw _ _ _ h0)
    | exact coreEq_declFold ctx1 ctx2 cfg sf hw _ _ _ h0

theorem coreEq_entryFilePass (ctx1 ctx2 : Ctx) (hw : ctx1.workingDir = ctx2.workingDir)
    (fs : List SourceFile) (s1 s2 : EngineState) (h : coreEq s1 s2) :
    coreEq (entryFilePass ctx1 fs s1) (entryFilePass ctx2 fs s2) := by
  unfold entryFilePass
  refine coreEq_foldl _ _ ?_ fs s1 s2 h
  intro a b sf hab
  dsimp only
  refine coreEq_unresolvedFold ctx1 ctx2 hw _ _ _ ?_
  obtain ⟨hi, hc⟩ := hab
  exact ⟨hi, by rw [hc]⟩

theorem coreEq_projectDependencyPass (ctx1 ctx2 : Ctx) (cfg : Configuration)
    (s1 s2 : EngineState) (h : coreEq s1 s2) :
    coreEq (projectDependencyPass ctx1 cfg s1) (projectDependencyPass ctx2 cfg s2) := by
  unfold projectDependencyPass
  dsimp only
  have h1 : coreEq
      (cfg.unusedDependencies.foldl (fun s symbol =>
        addProjectIssue ctx1 .dependencies { filePath := "", symbol := symbol } s) s1)
      (cfg.unusedDependencies.foldl (fun s symbol =>
        addProjectIssue ctx2 .dependencies { filePath := "", symbol := symbol } s) s2) := by
    refine coreEq_foldl _ _ ?_ cfg.unusedDependencies s1 s2 h
    intro a b sym hab
    exact coreEq_addProjectIssue ctx1 ctx2 .dependencies _ a b hab
  split
  · refine coreEq_foldl _ _ ?_ cfg.unusedDevDependencies _ _ h1
    intro a b sym hab
    exact coreEq_addProjectIssue ctx1 ctx2 .devDependencies _ a b hab
  · exact h1

theorem coreEq_processNonEntryFile2 (ctx1 ctx2 : Ctx) (cfg1 cfg2 : Configuration)
    (sf : SourceFile) (s1 s2 : EngineState) (hw : ctx1.workingDir = ctx2.workingDir)
    (hrep : cfg1.report = cfg2.report) (hjs : cfg1.jsDocOptions = cfg2.jsDocOptions)
    (h : coreEq s1 s2) :
    coreEq (processNonEntryFile ctx1 cfg1 sf s1) (processNonEntryFile ctx2 cfg2 sf s2) := by
  rw [processNonEntryFile_congr ctx1 cfg1 cfg2 sf s1 hrep hjs]
  exact coreEq_processNonEntryFile ctx1 ctx2 cfg2 sf s1 s2 hw h

theorem coreEq_nonEntryFold2 (ctx1 ctx2 : Ctx) (cfg1 cfg2 : Configuration)
    (fs : List SourceFile) (s1 s2 : EngineState) (hw : ctx1.workingDir = ctx2.workingDir)
    (hrep : cfg1.report = cfg2.report) (hjs : cfg1.jsDocOptions = cfg2.jsDocOptions)
    (h : coreEq s1 s2) :
    coreEq (fs.foldl (fun st sf => processNonEntryFile ctx1 cfg1 sf st) s1)
      (fs.foldl (fun st sf => processNonEntryFile ctx2 cfg2 sf st) s2) := by
  refine coreEq_foldl _ _ ?_ fs s1 s2 h
  intro a b sf hab
  exact coreEq_processNonEntryFile2 ctx1 ctx2 cfg1 cfg2 sf a b hw hrep hjs hab

theorem coreEq_projectDependencyPass2 (ctx1 ctx2 : Ctx) (cfg1 cfg2 : Configuration)
    (s1 s2 : EngineState) (hdev : cfg1.isDev = cfg2.isDev)
    (hud : cfg1.unusedDependencies = cfg2.unusedDependencies)
    (hudd : cfg1.unusedDevDependencies = cfg2.unusedDevDependencies)
    (h : coreEq s1 s2) :
    coreEq (projectDependencyPass ctx1 cfg1 s1) (projectDependencyPass ctx2 cfg2 s2) := by
  rw [projectDependencyPass_congr ctx1 cfg1 cfg2 s1 hdev hud hudd]
  exact coreEq_projectDependencyPass ctx1 ctx2 cfg2 s1 s2 h

theorem coreEq_findIssuesState (cfg : Configuration) (b1 b2 : Bool) :
    coreEq (findIssuesState { cfg with isShowProgress := b1 })
      (findIssuesState { cfg with isShowProgress := b2 }) := by
  unfold findIssuesState
  dsimp only
  split
  · split
    · split
      · exact coreEq_projectDependencyPass2 _ _ _ _ _ _ (by rfl) (by rfl) (by rfl)
          (coreEq_nonEntryFold2 _ _ _ _ _ _ _ (by rfl) (by rfl) (by rfl)
            (coreEq_entryFilePass _ _ (by rfl) _ _ _ ⟨rfl, rfl⟩))
      · exact coreEq_projectDependencyPass2 _ _ _ _ _ _ (by rfl) (by rfl) (by rfl)
          (coreEq_nonEntryFold2 _ _ _ _ _ _ _ (by rfl) (by rfl) (by rfl) ⟨rfl, rfl⟩)
    · split
      · exact coreEq_projectDependencyPass2 _ _ _ _ _ _ (by rfl) (by rfl) (by rfl)
          (coreEq_entryFilePass _ _ (by rfl) _ _ _ ⟨rfl, rfl⟩)
      · exact coreEq_projectDependencyPass2 _ _ _ _ _ _ (by rfl) (by rfl) (by rfl) ⟨rfl, rfl⟩
  · split
    · split
      · exact coreEq_nonEntryFold2 _ _ _ _ _ _ _ (by rfl) (by rfl) (by rfl)
          (coreEq_entryFilePass _ _ (by rfl) _ _ _ ⟨rfl, rfl⟩)
      · exact coreEq_nonEntryFold2 _ _ _ _ _ _ _ (by rfl) (by rfl) (by rfl) ⟨rfl, rfl⟩
    · split
      · exact coreEq_entryFilePass _ _ (by rfl) _ _ _ ⟨rfl, rfl⟩
      · exact ⟨rfl, rfl⟩
/-- C9: the progress reporter is purely observational — when progress
display is off every reporter call is a no-op, and the issues and counters
returned by `findIssues` are identical whether the display is on or
off. -/
theorem progress_reporter_noninterference (cfg : Configuration) (ctx : Ctx) (item : Issue)
    (st : EngineState) (hoff : ctx.isShowProgress = false) :
    updateProcessingOutput ctx item st = st ∧
    (findIssuesState { cfg with isShowProgress := true }).issues =
      (findIssuesState { cfg with isShowProgress := false }).issues ∧
    (findIssuesState { cfg with isShowProgress := true }).counters =
      (findIssuesState { cfg with isShowProgress := false }).counters := by
  refine ⟨?_, (coreEq_findIssuesState cfg true false).1, (coreEq_findIssuesState cfg true false).2⟩
  unfold updateProcessingOutput
  rw [hoff]
  rfl

/-- Witness for C9 at the aliased-export configuration and a concrete
reporter call. -/
theorem progress_reporter_noninterference_witness :
    quietCtx.isShowProgress = false ∧
    (updateProcessingOutput quietCtx { filePath := "/proj/a.ts", symbol := "x" } emptyState = emptyState ∧
     (findIssuesState { aliasedExportConfig with isShowProgress := true }).issues =
       (findIssuesState { aliasedExportConfig with isShowProgress := false }).issues ∧
     (findIssuesState { aliasedExportConfig with isShowProgress := true }).counters =
       (findIssuesState { aliasedExportConfig with isShowProgress := false }).counters) :=
  ⟨rfl, progress_reporter_noninterference aliasedExportConfig quietCtx
    { filePath := "/proj/a.ts", symbol := "x" } emptyState rfl⟩

/-! ## Claim C6 -/

theorem processNonEntryFile_files (ctx : Ctx) (cfg : Configuration) (sf : SourceFile)
    (st : EngineState) :
    (processNonEntryFile ctx cfg sf st).issues.files = st.issues.files := by
  have hu : ∀ s : EngineState,
      ((sf.unresolvedDependencies.foldl (fun s issue => addSymbolIssue ctx .unresolved issue s) s).issues.files)
        = s.issues.files :=
    fun s => foldl_preserve _ (fun s => s.issues.files)
      (fun s issue => addSymbolIssue_files ctx .unresolved issue s) _ s
  have hd : ∀ s : EngineState,
      ((sf.duplicateExportGroups.foldl (fun s symbols => addSymbolIssue ctx .duplicates
          { filePath := sf.filePath, symbol := String.intercalate "|" symbols, symbols := symbols } s) s).issues.files)
        = s.issues.files :=
    fun s => foldl_preserve _ (fun s => s.issues.files)
      (fun s g => addSymbolIssue_files ctx .duplicates _ s) _ s
  have hc : ∀ s : EngineState,
      ((sf.exportedDeclarations.foldl
          (fun s p => p.2.foldl (fun s d => processDeclaration ctx cfg sf d s) s) s).issues.files)
        = s.issues.files :=
    fun s => foldl_preserve _ (fun s => s.issues.files)
      (fun s (p : String × List Declaration) => foldl_preserve _ (fun s => s.issues.files)
        (fun s d => processDeclaration_files ctx cfg sf d s) p.2 s) _ s
  unfold processNonEntryFile
  dsimp only
  repeat' split
  all_goals
    simp only [hc, hd, hu]

theorem entryFilePass_files (ctx : Ctx) (fs : List SourceFile) (st : EngineState) :
    (entryFilePass ctx fs st).issues.files = st.issues.files := by
  unfold entryFilePass
  refine foldl_preserve _ (fun s : EngineState => s.issues.files) ?_ fs st
  intro s sf
  dsimp only
  exact foldl_preserve _ (fun s : EngineState => s.issues.files)
    (fun s issue => addSymbolIssue_files ctx .unresolved issue s) _ _

theorem projectDependencyPass_files (ctx : Ctx) (cfg : Configuration) (st : EngineState) :
    (projectDependencyPass ctx cfg st).issues.files = st.issues.files := by
  have h1 : ∀ (l : List String) (pt : ProjectIssueType) (s : EngineState),
      ((l.foldl (fun s symbol => addProjectIssue ctx pt { filePath := "", symbol := symbol } s) s).issues.files)
        = s.issues.files :=
    fun l pt s => foldl_preserve _ (fun s => s.issues.files)
      (fun s sym => addProjectIssue_files ctx pt _ s) l s
  unfold projectDependencyPass
  dsimp only
  split
  · rw [h1, h1]
  · rw [h1]

theorem findIssuesState_files (cfg : Configuration) :
    (findIssuesState cfg).issues.files =
      mkSet (((partitionSourceFiles cfg.projectFiles cfg.productionFiles).2).map
        (fun f => f.filePath)) := by
  unfold findIssuesState
  dsimp only
  have hn : ∀ (fs : List SourceFile) (s : EngineState) (ctx : Ctx),
      ((fs.foldl (fun st sf => processNonEntryFile ctx cfg sf st) s).issues.files) = s.issues.files :=
    fun fs s ctx => foldl_preserve _ (fun s => s.issues.files)
      (fun s sf => processNonEntryFile_files ctx cfg sf s) fs s
  repeat' split
  all_goals
    simp only [projectDependencyPass_files, hn, entryFilePass_files]

/-- C6: the file partition is total, disjoint and order-preserving — each
output of `partitionSourceFiles` holds exactly the candidate files whose
path is (respectively is not) present in the reference set, in candidate
order (`Sublist`), the outputs are disjoint, and consequently a production
file (whose path occurs among the project files, as the project loader
guarantees) lands in `usedProductionFiles` and never in the `files` issue
set — exactly one of the two. -/
theorem partition_total_disjoint_ordered (cfg : Configuration) (f : SourceFile)
    (hf : f ∈ cfg.productionFiles)
    (hsub : ∀ g ∈ cfg.productionFiles, ∃ p ∈ cfg.projectFiles, p.filePath = g.filePath) :
    (∀ (candidates refSet : List SourceFile) (x : SourceFile),
      (x ∈ (partitionSourceFiles candidates refSet).1 ↔
        x ∈ candidates ∧ refSet.any (fun g => g.filePath = x.filePath) = true) ∧
      (x ∈ (partitionSourceFiles candidates refSet).2 ↔
        x ∈ candidates ∧ ¬ refSet.any (fun g => g.filePath = x.filePath) = true) ∧
      ¬(x ∈ (partitionSourceFiles candidates refSet).1 ∧
        x ∈ (partitionSourceFiles candidates refSet).2) ∧
      (partitionSourceFiles candidates refSet).1.Sublist candidates ∧
      (partitionSourceFiles candidates refSet).2.Sublist candidates) ∧
    f.filePath ∉ (findIssuesState cfg).issues.files ∧
    (∃ g ∈ (partitionSourceFiles cfg.projectFiles cfg.productionFiles).1,
      g.filePath = f.filePath) := by
  have hgen : ∀ (candidates refSet : List SourceFile) (x : SourceFile),
      (x ∈ (partitionSourceFiles candidates refSet).1 ↔
        x ∈ candidates ∧ refSet.any (fun g => g.filePath = x.filePath) = true) ∧
      (x ∈ (partitionSourceFiles candidates refSet).2 ↔
        x ∈ candidates ∧ ¬ refSet.any (fun g => g.filePath = x.filePath) = true) ∧
      ¬(x ∈ (partitionSourceFiles candidates refSet).1 ∧
        x ∈ (partitionSourceFiles candidates refSet).2) ∧
      (partitionSourceFiles candidates refSet).1.Sublist candidates ∧
      (partitionSourceFiles candidates refSet).2.Sublist candidates := by
    intro candidates refSet x
    refine ⟨?_, ?_, ?_, ?_, ?_⟩
    · simp [partitionSourceFiles, List.mem_filter]
    · simp [partitionSourceFiles, List.mem_filter]
    · rintro ⟨h1, h2⟩
      simp [partitionSourceFiles, List.mem_filter] at h1 h2
      rcases h1.2 with ⟨g, hg, he⟩
      exact h2.2 g hg he
    · exact List.filter_sublist _
    · exact List.filter_sublist _
  refine ⟨hgen, ?_, ?_⟩
  · rw [findIssuesState_files, mem_mkSet]
    intro hmem
    rcases List.mem_map.mp hmem with ⟨a, ha, hpath⟩
    rcases (hgen cfg.projectFiles cfg.productionFiles a).2.1.mp ha with ⟨_, hnot⟩
    apply hnot
    rw [List.any_eq_true]
    exact ⟨f, hf, by simp [hpath]⟩
  · rcases hsub f hf with ⟨p, hp, hpath⟩
    refine ⟨p, ?_, hpath⟩
    rw [(hgen cfg.projectFiles cfg.productionFiles p).1]
    refine ⟨hp, ?_⟩
    rw [List.any_eq_true]
    exact ⟨f, hf, by simp [hpath]⟩

/-- Witness for C6 at the aliased-export configuration: the production
file `a.ts` appears in `usedProductionFiles` and not in the `files` issue
set. -/
theorem partition_total_disjoint_ordered_witness :
    aliasedExportFile ∈ aliasedExportConfig.productionFiles ∧
    (∀ g ∈ aliasedExportConfig.productionFiles,
      ∃ p ∈ aliasedExportConfig.projectFiles, p.filePath = g.filePath) ∧
    ((∀ (candidates refSet : List SourceFile) (x : SourceFile),
      (x ∈ (partitionSourceFiles candidates refSet).1 ↔
        x ∈ candidates ∧ refSet.any (fun g => g.filePath = x.filePath) = true) ∧
      (x ∈ (partitionSourceFiles candidates refSet).2 ↔
        x ∈ candidates ∧ ¬ refSet.any (fun g => g.filePath = x.filePath) = true) ∧
      ¬(x ∈ (partitionSourceFiles candidates refSet).1 ∧
        x ∈ (partitionSourceFiles candidates refSet).2) ∧
      (partitionSourceFiles candidates refSet).1.Sublist candidates ∧
      (partitionSourceFiles candidates refSet).2.Sublist candidates) ∧
    aliasedExportFile.filePath ∉ (findIssuesState aliasedExportConfig).issues.files ∧
    (∃ g ∈ (partitionSourceFiles aliasedExportConfig.projectFiles aliasedExportConfig.productionFiles).1,
      g.filePath = aliasedExportFile.filePath)) :=
  ⟨by decide, by decide,
   partition_total_disjoint_ordered aliasedExportConfig aliasedExportFile (by decide) (by decide)⟩

end Knip
